import Mathlib

/-!
Shallow embedding of the storage / polyline-codec / Strava-sync core of the
gpxgridchallenge repository (src/server/activity-storage.ts, src/server/storage.ts
and the Strava sync module), together with theorems settling the frozen claims.

JavaScript numbers are modelled as `Int` (for quantities the code treats as
integers: scaled coordinates, char codes, unix times, ids, HTTP statuses) or as
`ℚ` (for real-valued coordinates).  JavaScript 32-bit bitwise operators
(`<<`, `>>`, `|`, `&`, `~`), which operate on the ToInt32 image of their
operands, are modelled explicitly below.  Strings of polyline characters are
modelled as their lists of UTF-16 char codes (the codec only ever produces and
consumes codes 63..126, so `String.fromCharCode` / `charCodeAt` are exact
inverses on them).
-/

namespace GpxGrid

/-- Decidable equality for `Except` outcomes, used to evaluate the model on
concrete inputs. -/
instance exceptDecEq {ε α : Type} [DecidableEq ε] [DecidableEq α] :
    DecidableEq (Except ε α)
  | .error e, .error f =>
    if h : e = f then .isTrue (h ▸ rfl) else .isFalse (fun hc => h (Except.error.inj hc))
  | .error _, .ok _ => .isFalse (fun hc => Except.noConfusion hc)
  | .ok _, .error _ => .isFalse (fun hc => Except.noConfusion hc)
  | .ok a, .ok b =>
    if h : a = b then .isTrue (h ▸ rfl) else .isFalse (fun hc => h (Except.ok.inj hc))

/-- JavaScript `ToInt32`: reduce an integer into the range `[-2^31, 2^31)`. -/
def jsToInt32 (n : Int) : Int :=
  if n % (2 ^ 32 : Int) < 2 ^ 31 then n % (2 ^ 32 : Int) else n % (2 ^ 32 : Int) - 2 ^ 32

/-- The unsigned 32-bit representative of an integer, as a natural number. -/
def toUInt32n (n : Int) : Nat := (n % (2 ^ 32 : Int)).toNat

/-- JavaScript `a << k` (left shift of the ToInt32 images, count mod 32). -/
def jsShl (a : Int) (k : Nat) : Int := jsToInt32 (a * 2 ^ (k % 32))

/-- JavaScript `a >> k` (sign-propagating right shift).  Arithmetic right
shift is floor division by the corresponding power of two, and Euclidean
division by a positive divisor is floor division. -/
def jsShr (a : Int) (k : Nat) : Int := jsToInt32 a / (2 ^ (k % 32))

/-- JavaScript `a | b` on 32-bit two's-complement representations. -/
def jsOr (a b : Int) : Int := jsToInt32 ((toUInt32n a ||| toUInt32n b : Nat) : Int)

/-- JavaScript `a & b` on 32-bit two's-complement representations. -/
def jsAnd (a b : Int) : Int := jsToInt32 ((toUInt32n a &&& toUInt32n b : Nat) : Int)

/-- JavaScript `~a` (bitwise not of the ToInt32 image). -/
def jsNot (a : Int) : Int := -(jsToInt32 a) - 1

/-- JavaScript `Math.round`: round half toward positive infinity, which is
exactly Mathlib's `round` (`⌊x + 1/2⌋`). -/
def jsMathRound (q : ℚ) : Int := round q

/-- `POINT_SCALE` from activity-storage.ts. -/
def POINT_SCALE : ℚ := 100000

/-- `encodeNumber` from activity-storage.ts: emit `num` in 5-bit groups,
low-order first, each group OR'd with the 0x20 continuation flag except the
final one, each offset by +63.  Output is the list of char codes. -/
def encodeNumber (value : Int) : List Int :=
  if _h : value < 0x20 then [value + 63]
  else (jsOr 0x20 (jsAnd value 0x1f) + 63) :: encodeNumber (jsShr value 5)
termination_by value.toNat
decreasing_by
  simp only [jsShr, jsToInt32]
  norm_num
  split <;> omega

/-- `encodePoints` from activity-storage.ts: scale each coordinate by 1e5,
round, delta against the previous scaled point, zigzag-transform
(`delta < 0 ? ~(delta << 1) : delta << 1`), and emit both codes.  The
iteration state `(prevLat, prevLng)` is threaded explicitly. -/
def encodePointsAux (prevLat prevLng : Int) : List (ℚ × ℚ) → List Int
  | [] => []
  | (lat, lng) :: rest =>
    let latE5 := jsMathRound (lat * POINT_SCALE)
    let lngE5 := jsMathRound (lng * POINT_SCALE)
    let deltaLat := latE5 - prevLat
    let deltaLng := lngE5 - prevLng
    let latCode := if deltaLat < 0 then jsNot (jsShl deltaLat 1) else jsShl deltaLat 1
    let lngCode := if deltaLng < 0 then jsNot (jsShl deltaLng 1) else jsShl deltaLng 1
    encodeNumber latCode ++ encodeNumber lngCode ++ encodePointsAux latE5 lngE5 rest

/-- `encodePoints` (activity-storage.ts line 84): the fold starts from
`prevLat = 0`, `prevLng = 0`. -/
def encodePoints (points : List (ℚ × ℚ)) : List Int :=
  encodePointsAux 0 0 points

/-- The do-while loop of `decodeValue` (activity-storage.ts line 109): read
char codes, subtract 63, accumulate 5-bit groups at increasing shifts until a
byte without the 0x20 continuation flag.  Running off the end of the string
makes `charCodeAt` return NaN, for which `(NaN & 0x1f) << shift` contributes 0
and `NaN >= 0x20` is false, ending the loop: the `[]` case mirrors that. -/
def decodeValueAux : List Int → Int → Nat → Int × List Int
  | [], acc, _ => (jsToInt32 acc, [])
  | c :: rest, acc, shift =>
    let byte := c - 63
    let acc2 := jsOr acc (jsShl (jsAnd byte 0x1f) shift)
    if 0x20 ≤ byte then decodeValueAux rest acc2 (shift + 5) else (acc2, rest)

/-- `decodeValue`: run the group loop from 0, then invert the zigzag transform
(`result & 1 ? ~(result >> 1) : result >> 1`).  Returns the delta and the
remaining char codes. -/
def decodeValue (encoded : List Int) : Int × List Int :=
  let r := decodeValueAux encoded 0 0
  let shouldNegate := jsAnd r.1 1
  let delta := if shouldNegate ≠ 0 then jsNot (jsShr r.1 1) else jsShr r.1 1
  (delta, r.2)

theorem decodeValueAux_length_le (l : List Int) (acc : Int) (shift : Nat) :
    (decodeValueAux l acc shift).2.length ≤ l.length := by
  induction l generalizing acc shift with
  | nil => simp [decodeValueAux]
  | cons c rest ih =>
    simp only [decodeValueAux]
    split
    · exact le_trans (ih _ _) (by simp)
    · simp

theorem decodeValueAux_length_lt (c : Int) (l : List Int) (acc : Int) (shift : Nat) :
    (decodeValueAux (c :: l) acc shift).2.length < (c :: l).length := by
  simp only [decodeValueAux]
  split
  · exact lt_of_le_of_lt (decodeValueAux_length_le _ _ _) (by simp)
  · simp

theorem decodeValue_snd (l : List Int) : (decodeValue l).2 = (decodeValueAux l 0 0).2 := by
  rw [decodeValue]

theorem decodeValue_length_lt (c : Int) (l : List Int) :
    (decodeValue (c :: l)).2.length < (c :: l).length := by
  rw [decodeValue_snd]
  exact decodeValueAux_length_lt c l 0 0

theorem decodeValue_length_le (l : List Int) :
    (decodeValue l).2.length ≤ l.length := by
  rw [decodeValue_snd]
  exact decodeValueAux_length_le l 0 0

/-- The while loop of `decodePoints` (activity-storage.ts line 128): decode a
latitude delta then a longitude delta, accumulate them into the running scaled
coordinates, emit `[lat / 1e5, lng / 1e5]`, repeat while chars remain.  The
`fuel` argument makes the recursion structural; it is initialised to the
length of the char list, and since every iteration consumes at least one char
(see `decodeValue_length_lt`) the `0` case is never reached. -/
def decodePointsAux : Nat → List Int → Int → Int → List (ℚ × ℚ)
  | _, [], _, _ => []
  | 0, _ :: _, _, _ => []
  | fuel + 1, c :: rest0, lat, lng =>
    let rLat := decodeValue (c :: rest0)
    let rLng := decodeValue rLat.2
    let lat2 := lat + rLat.1
    let lng2 := lng + rLng.1
    ((lat2 : ℚ) / POINT_SCALE, (lng2 : ℚ) / POINT_SCALE) ::
      decodePointsAux fuel rLng.2 lat2 lng2

/-- `decodePoints` (activity-storage.ts line 128): start from `lat = 0`,
`lng = 0`. -/
def decodePoints (encoded : List Int) : List (ℚ × ℚ) :=
  decodePointsAux encoded.length encoded 0 0

theorem jsToInt32_eq_self {n : Int} (h1 : -(2 ^ 31) ≤ n) (h2 : n < 2 ^ 31) :
    jsToInt32 n = n := by
  simp only [jsToInt32]
  split <;> omega

theorem toUInt32n_eq {n : Int} (h1 : 0 ≤ n) (h2 : n < 2 ^ 32) :
    toUInt32n n = n.toNat := by
  simp only [toUInt32n]
  omega

theorem jsOr_comm (a b : Int) : jsOr a b = jsOr b a := by
  unfold jsOr
  rw [Nat.lor_comm]

theorem jsOr_zero {a : Int} (h1 : 0 ≤ a) (h2 : a < 2 ^ 31) : jsOr a 0 = a := by
  simp only [jsOr]
  rw [toUInt32n_eq h1 (by omega), toUInt32n_eq le_rfl (by norm_num)]
  simp only [Int.toNat_zero, Nat.or_zero]
  rw [show ((a.toNat : Nat) : Int) = a by omega]
  exact jsToInt32_eq_self (by omega) h2

theorem nat_lor_disjoint (a b s : Nat) (h : a < 2 ^ s) :
    (a ||| b * 2 ^ s : Nat) = a + b * 2 ^ s := by
  have key := Nat.mul_add_lt_is_or h b
  rw [Nat.lor_comm, Nat.mul_comm b (2 ^ s), ← key]
  ring

theorem jsOr_disjoint {a b : Int} (s : Nat) (ha : 0 ≤ a) (hlt : a < 2 ^ s) (hb : 0 ≤ b)
    (hbound : a + b * 2 ^ s < 2 ^ 31) : jsOr a (b * 2 ^ s) = a + b * 2 ^ s := by
  have hbs : 0 ≤ b * 2 ^ s := by positivity
  have hcast : ((2 ^ s : Nat) : Int) = (2 : Int) ^ s := by push_cast; ring
  simp only [jsOr]
  rw [toUInt32n_eq ha (by omega), toUInt32n_eq hbs (by omega)]
  have hbn : (b * 2 ^ s).toNat = b.toNat * 2 ^ s := by
    have hb' : ((b.toNat : Int)) = b := Int.toNat_of_nonneg hb
    have hmul : b * (2 : Int) ^ s = ((b.toNat * 2 ^ s : Nat) : Int) := by
      push_cast [hb']
      ring
    omega
  have h1 : a.toNat < 2 ^ s := by omega
  rw [hbn, nat_lor_disjoint a.toNat b.toNat s h1]
  have hofnat : (((a.toNat + b.toNat * 2 ^ s : Nat)) : Int) = a + b * 2 ^ s := by
    rw [← hbn]
    omega
  rw [hofnat]
  exact jsToInt32_eq_self (by omega) hbound

theorem jsAnd_31 {a : Int} (h1 : 0 ≤ a) (h2 : a < 2 ^ 32) : jsAnd a 31 = a % 32 := by
  simp only [jsAnd]
  rw [toUInt32n_eq h1 h2, toUInt32n_eq (by norm_num) (by norm_num)]
  have h31 : ((31 : Int).toNat) = 2 ^ 5 - 1 := by decide
  rw [h31, Nat.and_pow_two_sub_one_eq_mod]
  have hmod : ((a.toNat % 2 ^ 5 : Nat) : Int) = a % 32 := by omega
  rw [hmod]
  exact jsToInt32_eq_self (by omega) (by omega)

theorem jsAnd_1 {a : Int} (h1 : 0 ≤ a) (h2 : a < 2 ^ 32) : jsAnd a 1 = a % 2 := by
  simp only [jsAnd]
  rw [toUInt32n_eq h1 h2, toUInt32n_eq (by norm_num) (by norm_num)]
  have h1' : ((1 : Int).toNat) = 2 ^ 1 - 1 := by decide
  rw [h1', Nat.and_pow_two_sub_one_eq_mod]
  have hmod : ((a.toNat % 2 ^ 1 : Nat) : Int) = a % 2 := by omega
  rw [hmod]
  exact jsToInt32_eq_self (by omega) (by omega)

theorem jsShl_eq {a : Int} {k : Nat} (hk : k < 32) (h1 : -(2 ^ 31) ≤ a * 2 ^ k)
    (h2 : a * 2 ^ k < 2 ^ 31) : jsShl a k = a * 2 ^ k := by
  simp only [jsShl, Nat.mod_eq_of_lt hk]
  exact jsToInt32_eq_self h1 h2

theorem jsShr_eq {a : Int} {k : Nat} (h1 : -(2 ^ 31) ≤ a) (h2 : a < 2 ^ 31) :
    jsShr a k = a / 2 ^ (k % 32) := by
  simp only [jsShr, jsToInt32_eq_self h1 h2]

theorem jsNot_eq {a : Int} (h1 : -(2 ^ 31) ≤ a) (h2 : a < 2 ^ 31) : jsNot a = -a - 1 := by
  simp only [jsNot, jsToInt32_eq_self h1 h2]

/-- On a nonnegative 31-bit input, `encodeNumber` is plain base-32 emission:
final group `n + 63` when `n < 32`, otherwise group `95 + n % 32` followed by
the encoding of `n / 32`. -/
theorem encodeNumber_eq {n : Int} (h1 : 0 ≤ n) (h2 : n < 2 ^ 31) :
    encodeNumber n = if n < 32 then [n + 63]
      else (95 + n % 32) :: encodeNumber (n / 32) := by
  rw [encodeNumber]
  split
  · rfl
  · next hge =>
    have h32 : (32 : Int) ≤ n := by omega
    have ha : jsAnd n 31 = n % 32 := jsAnd_31 h1 (by omega)
    have ho : jsOr 32 (jsAnd n 31) = n % 32 + 32 := by
      rw [ha, jsOr_comm]
      have := jsOr_disjoint (a := n % 32) (b := 1) 5 (by omega) (by omega) (by omega) (by omega)
      simpa using this
    have hs : jsShr n 5 = n / 32 := by
      rw [jsShr_eq (by omega) h2]
      norm_num
    rw [ho, hs, show n % 32 + 32 + 63 = 95 + n % 32 from by omega]

theorem shift_lt_31 {shift : Nat} (h : (2 : Int) ^ shift < 2 ^ 31) : shift < 31 := by
  by_contra hc
  have h31 : (31 : Nat) ≤ shift := by omega
  have := pow_le_pow_right₀ (by norm_num : (1 : Int) ≤ 2) h31
  omega

theorem decodeValueAux_encode_small {n acc : Int} {shift : Nat} (rest : List Int)
    (hn0 : 0 ≤ n) (hn32 : n < 32) (ha0 : 0 ≤ acc) (halt : acc < 2 ^ shift)
    (hbound : acc + n * 2 ^ shift < 2 ^ 31) :
    decodeValueAux (encodeNumber n ++ rest) acc shift = (acc + n * 2 ^ shift, rest) := by
  have hP : (0 : Int) < 2 ^ shift := by positivity
  have hacc31 : acc < 2 ^ 31 := by nlinarith
  rw [encodeNumber_eq hn0 (by omega), if_pos hn32]
  simp only [List.cons_append, List.nil_append, decodeValueAux]
  rw [show n + 63 - 63 = n from by ring]
  rw [if_neg (by omega)]
  have hand : jsAnd n 31 = n := by
    rw [jsAnd_31 hn0 (by omega)]
    omega
  rw [hand]
  rcases eq_or_lt_of_le hn0 with hz | hpos
  · rw [show jsShl n shift = 0 from by rw [← hz]; norm_num [jsShl, jsToInt32]]
    rw [jsOr_zero ha0 hacc31]
    rw [show acc + n * 2 ^ shift = acc from by rw [← hz]; ring]
    simp
  · have hs31 : shift < 31 := by
      apply shift_lt_31
      calc (2 : Int) ^ shift ≤ n * 2 ^ shift := le_mul_of_one_le_left hP.le (by omega)
        _ ≤ acc + n * 2 ^ shift := by linarith
        _ < 2 ^ 31 := hbound
    have hshl : jsShl n shift = n * 2 ^ shift := by
      have hge : (0 : Int) ≤ n * 2 ^ shift := mul_nonneg hn0 hP.le
      apply jsShl_eq (by omega) (by linarith) (by linarith)
    rw [hshl, jsOr_disjoint shift ha0 halt hn0 hbound]
    simp

theorem decodeValueAux_encode (m : Nat) :
    ∀ {n acc : Int} {shift : Nat} (rest : List Int), n.toNat ≤ m → 0 ≤ n →
      0 ≤ acc → acc < 2 ^ shift → acc + n * 2 ^ shift < 2 ^ 31 →
      decodeValueAux (encodeNumber n ++ rest) acc shift = (acc + n * 2 ^ shift, rest) := by
  induction m with
  | zero =>
    intro n acc shift rest hm hn ha halt hb
    exact decodeValueAux_encode_small rest hn (by omega) ha halt hb
  | succ m ih =>
    intro n acc shift rest hm hn ha halt hb
    by_cases hsmall : n < 32
    · exact decodeValueAux_encode_small rest hn hsmall ha halt hb
    · have hP : (0 : Int) < 2 ^ shift := by positivity
      have hmodnn : 0 ≤ n % 32 := Int.emod_nonneg n (by norm_num)
      have hmod31 : n % 32 ≤ 31 := by omega
      have hsplit : 32 * (n / 32) + n % 32 = n := Int.ediv_add_emod n 32
      have hdivnn : 0 ≤ n / 32 := Int.ediv_nonneg hn (by norm_num)
      have htn : (n / 32).toNat ≤ m := by omega
      have hs31 : shift < 31 := by
        apply shift_lt_31
        calc (2 : Int) ^ shift ≤ n * 2 ^ shift := le_mul_of_one_le_left hP.le (by omega)
          _ ≤ acc + n * 2 ^ shift := by linarith
          _ < 2 ^ 31 := hb
      have hmP : (n % 32) * 2 ^ shift ≤ n * 2 ^ shift :=
        mul_le_mul_of_nonneg_right (by omega) hP.le
      have hkey : acc + n % 32 * 2 ^ shift + n / 32 * 2 ^ (shift + 5) = acc + n * 2 ^ shift := by
        have hpow : (2 : Int) ^ (shift + 5) = 2 ^ shift * 32 := by
          rw [pow_add]
          norm_num
        rw [hpow]
        linear_combination (2 : Int) ^ shift * hsplit
      have h1P : (1 : Int) ≤ 2 ^ shift := by omega
      have hnle : n ≤ n * 2 ^ shift := le_mul_of_one_le_right hn h1P
      have hn31 : n < 2 ^ 31 := by linarith
      rw [encodeNumber_eq hn hn31, if_neg hsmall]
      simp only [List.cons_append, decodeValueAux]
      rw [show (95 : Int) + n % 32 - 63 = 32 + n % 32 from by ring]
      rw [if_pos (by omega : (0x20 : Int) ≤ 32 + n % 32)]
      have hand : jsAnd (32 + n % 32) 31 = n % 32 := by
        rw [jsAnd_31 (by omega) (by omega)]
        omega
      rw [hand]
      have hshl : jsShl (n % 32) shift = n % 32 * 2 ^ shift := by
        have hge : (0 : Int) ≤ n % 32 * 2 ^ shift := mul_nonneg hmodnn hP.le
        apply jsShl_eq (by omega) (by linarith) (by nlinarith)
      rw [hshl, jsOr_disjoint shift ha halt hmodnn (by nlinarith)]
      have hacc2lt : acc + n % 32 * 2 ^ shift < 2 ^ (shift + 5) := by
        have hpow : (2 : Int) ^ (shift + 5) = 2 ^ shift * 32 := by
          rw [pow_add]
          norm_num
        nlinarith
      have hge2 : (0 : Int) ≤ acc + n % 32 * 2 ^ shift := by
        have := mul_nonneg hmodnn hP.le
        linarith
      have hbig : acc + n % 32 * 2 ^ shift + n / 32 * 2 ^ (shift + 5) < 2 ^ 31 := by
        rw [hkey]
        exact hb
      have hrec := ih rest htn hdivnn hge2 hacc2lt hbig
      simp only [List.append_eq]
      rw [hrec, hkey]

theorem decodeValue_fst (l : List Int) :
    (decodeValue l).1 = (if jsAnd (decodeValueAux l 0 0).1 1 ≠ 0
      then jsNot (jsShr (decodeValueAux l 0 0).1 1)
      else jsShr (decodeValueAux l 0 0).1 1) := by
  rw [decodeValue]

/-- Decoding the char codes emitted for the zigzag transform of a delta `d`
recovers `d` exactly and leaves the remaining codes untouched. -/
theorem decodeValue_encode {d : Int} (rest : List Int)
    (hlo : -(2 ^ 30) < d) (hhi : d < 2 ^ 30) :
    decodeValue (encodeNumber (if d < 0 then jsNot (jsShl d 1) else jsShl d 1) ++ rest)
      = (d, rest) := by
  have hshl : jsShl d 1 = d * 2 := by
    have h := jsShl_eq (a := d) (k := 1) (by norm_num) (by norm_num; omega) (by norm_num; omega)
    simpa using h
  have hzval : (if d < 0 then jsNot (jsShl d 1) else jsShl d 1)
      = (if d < 0 then -(d * 2) - 1 else d * 2) := by
    split
    · rw [hshl, jsNot_eq (by omega) (by omega)]
    · rw [hshl]
  set z := if d < 0 then -(d * 2) - 1 else d * 2 with hzdef
  have hz0 : 0 ≤ z := by
    rw [hzdef]
    split <;> omega
  have hz31 : z < 2 ^ 31 := by
    rw [hzdef]
    split <;> omega
  rw [hzval]
  have hdec : decodeValueAux (encodeNumber z ++ rest) 0 0 = (0 + z * 2 ^ 0, rest) :=
    decodeValueAux_encode z.toNat rest le_rfl hz0 le_rfl (by norm_num) (by simpa using hz31)
  have hdec' : decodeValueAux (encodeNumber z ++ rest) 0 0 = (z, rest) := by
    rw [hdec]
    norm_num
  have h2 : (decodeValue (encodeNumber z ++ rest)).2 = rest := by
    rw [decodeValue_snd, hdec']
  have h1 : (decodeValue (encodeNumber z ++ rest)).1 = d := by
    rw [decodeValue_fst, hdec']
    have hand := jsAnd_1 hz0 (by omega)
    have hshr : jsShr z 1 = z / 2 := by
      rw [jsShr_eq (by omega) (by omega)]
      norm_num
    rcases lt_or_le d 0 with hd | hd
    · have hzodd : z = -(d * 2) - 1 := by rw [hzdef, if_pos hd]
      rw [if_pos (by rw [hand, hzodd]; omega)]
      rw [hshr, jsNot_eq (by omega) (by omega)]
      omega
    · have hzeven : z = d * 2 := by rw [hzdef, if_neg (by omega)]
      rw [if_neg (by rw [hand, hzeven]; omega)]
      rw [hshr]
      omega
  rw [Prod.ext_iff]
  exact ⟨h1, h2⟩

theorem encodeNumber_exists_cons (v : Int) : ∃ c cs, encodeNumber v = c :: cs := by
  rw [encodeNumber]
  split
  · exact ⟨_, _, rfl⟩
  · exact ⟨_, _, rfl⟩

theorem decodePointsAux_cons (fuel : Nat) (c : Int) (l : List Int) (lat lng : Int) :
    decodePointsAux (fuel + 1) (c :: l) lat lng =
      (((lat + (decodeValue (c :: l)).1 : Int) : ℚ) / POINT_SCALE,
       ((lng + (decodeValue (decodeValue (c :: l)).2).1 : Int) : ℚ) / POINT_SCALE)
      :: decodePointsAux fuel (decodeValue (decodeValue (c :: l)).2).2
           (lat + (decodeValue (c :: l)).1)
           (lng + (decodeValue (decodeValue (c :: l)).2).1) := by
  rw [decodePointsAux]

theorem decodePointsAux_nonempty (fuel : Nat) (l : List Int) (h : l ≠ []) (lat lng : Int) :
    decodePointsAux (fuel + 1) l lat lng =
      (((lat + (decodeValue l).1 : Int) : ℚ) / POINT_SCALE,
       ((lng + (decodeValue (decodeValue l).2).1 : Int) : ℚ) / POINT_SCALE)
      :: decodePointsAux fuel (decodeValue (decodeValue l).2).2
           (lat + (decodeValue l).1)
           (lng + (decodeValue (decodeValue l).2).1) := by
  cases l with
  | nil => exact absurd rfl h
  | cons c cs => exact decodePointsAux_cons fuel c cs lat lng

/-- One-point-at-a-time round trip for the full codec, threading the previous
scaled coordinate pair; `fuel` is any budget at least the length of the
encoded char list. -/
theorem decodePointsAux_encodePointsAux (pts : List (ℚ × ℚ)) :
    ∀ (fuel : Nat) (prevLat prevLng : Int),
      (encodePointsAux prevLat prevLng pts).length ≤ fuel →
      |prevLat| ≤ 18000000 → |prevLng| ≤ 18000000 →
      (∀ p ∈ pts, |jsMathRound (p.1 * POINT_SCALE)| ≤ 18000000 ∧
                  |jsMathRound (p.2 * POINT_SCALE)| ≤ 18000000) →
      decodePointsAux fuel (encodePointsAux prevLat prevLng pts) prevLat prevLng
        = pts.map (fun p => (((jsMathRound (p.1 * POINT_SCALE) : Int) : ℚ) / POINT_SCALE,
                             ((jsMathRound (p.2 * POINT_SCALE) : Int) : ℚ) / POINT_SCALE)) := by
  induction pts with
  | nil =>
    intro fuel _ _ _ _ _ _
    cases fuel <;> simp [encodePointsAux, decodePointsAux]
  | cons p rest ih =>
    intro fuel prevLat prevLng hfuel hplat hplng hb
    obtain ⟨lat, lng⟩ := p
    have hhead := hb (lat, lng) (List.mem_cons_self _ _)
    have hlatB : |jsMathRound (lat * POINT_SCALE)| ≤ 18000000 := hhead.1
    have hlngB : |jsMathRound (lng * POINT_SCALE)| ≤ 18000000 := hhead.2
    simp only [encodePointsAux] at hfuel ⊢
    set latE5 := jsMathRound (lat * POINT_SCALE) with hlatdef
    set lngE5 := jsMathRound (lng * POINT_SCALE) with hlngdef
    have hdlat1 : -(2 ^ 30) < latE5 - prevLat := by
      rw [abs_le] at hlatB hplat
      omega
    have hdlat2 : latE5 - prevLat < 2 ^ 30 := by
      rw [abs_le] at hlatB hplat
      omega
    have hdlng1 : -(2 ^ 30) < lngE5 - prevLng := by
      rw [abs_le] at hlngB hplng
      omega
    have hdlng2 : lngE5 - prevLng < 2 ^ 30 := by
      rw [abs_le] at hlngB hplng
      omega
    obtain ⟨c, cs, hc⟩ := encodeNumber_exists_cons
      (if latE5 - prevLat < 0 then jsNot (jsShl (latE5 - prevLat) 1)
       else jsShl (latE5 - prevLat) 1)
    obtain ⟨c2, cs2, hc2⟩ := encodeNumber_exists_cons
      (if lngE5 - prevLng < 0 then jsNot (jsShl (lngE5 - prevLng) 1)
       else jsShl (lngE5 - prevLng) 1)
    have hne : encodeNumber
        (if latE5 - prevLat < 0 then jsNot (jsShl (latE5 - prevLat) 1)
         else jsShl (latE5 - prevLat) 1) ++
        (encodeNumber
          (if lngE5 - prevLng < 0 then jsNot (jsShl (lngE5 - prevLng) 1)
           else jsShl (lngE5 - prevLng) 1) ++
         encodePointsAux latE5 lngE5 rest) ≠ [] := by
      rw [hc]
      simp
    obtain ⟨f, rfl⟩ : ∃ f, fuel = f + 1 := by
      rw [hc] at hfuel
      cases fuel with
      | zero => simp at hfuel
      | succ f => exact ⟨f, rfl⟩
    rw [List.append_assoc]
    rw [decodePointsAux_nonempty f _ hne]
    rw [decodeValue_encode _ hdlat1 hdlat2, decodeValue_encode _ hdlng1 hdlng2]
    rw [show prevLat + (latE5 - prevLat) = latE5 from by ring]
    rw [show prevLng + (lngE5 - prevLng) = lngE5 from by ring]
    have hffuel : (encodePointsAux latE5 lngE5 rest).length ≤ f := by
      rw [hc, hc2] at hfuel
      simp only [List.length_append, List.length_cons] at hfuel
      omega
    rw [ih f latE5 lngE5 hffuel hlatB hlngB (fun q hq => hb q (List.mem_cons_of_mem _ hq))]
    simp

theorem abs_round_le_of_abs_le {x : ℚ} {B : Int} (h : |x| ≤ (B : ℚ)) : |round x| ≤ B := by
  rw [abs_le] at h ⊢
  constructor
  · calc (-B : Int) = round ((-B : Int) : ℚ) := (round_intCast _).symm
      _ ≤ round x := by
          rw [round_eq, round_eq]
          refine Int.floor_mono ?_
          push_cast
          linarith
  · calc round x ≤ round ((B : Int) : ℚ) := by
          rw [round_eq, round_eq]
          exact Int.floor_mono (by linarith)
      _ = B := round_intCast _

/-- C1.  For every finite sequence of latitude/longitude points (coordinates in
valid lat/lng range, including negative deltas and sign changes between
consecutive points), decoding the polyline produced by encoding the sequence
yields the sequence with every coordinate rounded to the 1e-5 grid; in
particular the length is preserved and every decoded coordinate differs from
the original by at most 1e-5 degrees. -/
theorem polyline_decode_encode_roundtrip (points : List (ℚ × ℚ))
    (hb : ∀ p ∈ points, |p.1| ≤ 90 ∧ |p.2| ≤ 180) :
    decodePoints (encodePoints points)
      = points.map (fun p => (((jsMathRound (p.1 * POINT_SCALE) : Int) : ℚ) / POINT_SCALE,
                              ((jsMathRound (p.2 * POINT_SCALE) : Int) : ℚ) / POINT_SCALE))
    ∧ (decodePoints (encodePoints points)).length = points.length
    ∧ ∀ p ∈ points,
        |((jsMathRound (p.1 * POINT_SCALE) : Int) : ℚ) / POINT_SCALE - p.1| ≤ 1 / 100000
        ∧ |((jsMathRound (p.2 * POINT_SCALE) : Int) : ℚ) / POINT_SCALE - p.2| ≤ 1 / 100000 := by
  have hS : (POINT_SCALE : ℚ) = 100000 := rfl
  have hscaled : ∀ p ∈ points, |jsMathRound (p.1 * POINT_SCALE)| ≤ 18000000 ∧
      |jsMathRound (p.2 * POINT_SCALE)| ≤ 18000000 := by
    intro p hp
    obtain ⟨h1, h2⟩ := hb p hp
    have habs1 : |p.1 * POINT_SCALE| ≤ ((18000000 : Int) : ℚ) := by
      rw [abs_mul, hS]
      rw [show |(100000 : ℚ)| = 100000 from by norm_num]
      rw [show (((18000000 : Int)) : ℚ) = 18000000 from by norm_num]
      nlinarith [abs_nonneg p.1]
    have habs2 : |p.2 * POINT_SCALE| ≤ ((18000000 : Int) : ℚ) := by
      rw [abs_mul, hS]
      rw [show |(100000 : ℚ)| = 100000 from by norm_num]
      push_cast
      nlinarith [abs_nonneg p.2]
    exact ⟨abs_round_le_of_abs_le habs1, abs_round_le_of_abs_le habs2⟩
  have hmain := decodePointsAux_encodePointsAux points
    (encodePointsAux 0 0 points).length 0 0 le_rfl (by norm_num) (by norm_num) hscaled
  refine ⟨hmain, ?_, ?_⟩
  · rw [decodePoints, encodePoints, hmain, List.length_map]
  · intro p hp
    have hq : ∀ x : ℚ, |x| ≤ 180 →
        |((jsMathRound (x * POINT_SCALE) : Int) : ℚ) / POINT_SCALE - x| ≤ 1 / 100000 := by
      intro x _
      have h1 : |x * POINT_SCALE - (round (x * POINT_SCALE) : ℚ)| ≤ 1 / 2 :=
        abs_sub_round (x * POINT_SCALE)
      have heq : ((jsMathRound (x * POINT_SCALE) : Int) : ℚ) / POINT_SCALE - x
          = ((round (x * POINT_SCALE) : ℚ) - x * POINT_SCALE) / POINT_SCALE := by
        rw [hS]
        simp only [jsMathRound]
        field_simp
        ring
      rw [heq, abs_div, abs_sub_comm]
      rw [show |POINT_SCALE| = 100000 from by norm_num [POINT_SCALE]]
      rw [div_le_iff₀ (by norm_num)]
      linarith
    obtain ⟨h1, h2⟩ := hb p hp
    exact ⟨hq p.1 (by linarith [abs_nonneg p.1]), hq p.2 h2⟩

theorem polyline_decode_encode_roundtrip_witness :
    (∀ p ∈ [((385 : ℚ)/10, (-1202 : ℚ)/10), ((-14 : ℚ)/1000000, (26 : ℚ)/1000000)],
        |p.1| ≤ 90 ∧ |p.2| ≤ 180)
    ∧ decodePoints (encodePoints
        [((385 : ℚ)/10, (-1202 : ℚ)/10), ((-14 : ℚ)/1000000, (26 : ℚ)/1000000)])
      = [((385 : ℚ)/10, (-1202 : ℚ)/10), ((-1 : ℚ)/100000, (3 : ℚ)/100000)] := by
  constructor
  · intro p hp
    fin_cases hp <;> norm_num [abs_le]
  · have h := polyline_decode_encode_roundtrip
      [((385 : ℚ)/10, (-1202 : ℚ)/10), ((-14 : ℚ)/1000000, (26 : ℚ)/1000000)]
      (by intro p hp; fin_cases hp <;> norm_num [abs_le])
    rw [h.1]
    norm_num [jsMathRound, POINT_SCALE, round_eq]

/-!
## storage.ts: key normalization, local paths, drivers

`normalizeKey`, `splitKeySegments`, `toLocalPath` from src/server/storage.ts
lines 7-11.  Node's `path.join` joins its arguments with `/` and then
normalizes the result (collapsing `//`, resolving `.` and `..`); the POSIX
normalization is modelled by `posixNormalize`.  The storage root (a constant
absolute directory in the source) is threaded as the `root` parameter.
-/

/-- JavaScript `s.split("/")` (split on every slash, keeping empty pieces),
implemented structurally on the character list so that concrete instances
reduce in the kernel. -/
def splitSlashAux : List Char → List Char → List String
  | [], cur => [String.mk cur.reverse]
  | c :: cs, cur =>
    if c = '/' then String.mk cur.reverse :: splitSlashAux cs []
    else splitSlashAux cs (c :: cur)

/-- JavaScript `s.split("/")`. -/
def splitSlash (s : String) : List String := splitSlashAux s.toList []

/-- String prefix test (`String.startsWith`), structurally on char lists. -/
def strStartsWith (s p : String) : Bool := p.toList.isPrefixOf s.toList

/-- Join a list of strings with `/` separators. -/
def joinSlash (parts : List String) : String :=
  String.mk (List.intercalate ['/'] (parts.map (fun s => s.toList)))

/-- `key.replace(/^\/+/, "")`: strip leading slashes. -/
def normalizeKey (key : String) : String :=
  String.mk (key.toList.dropWhile (fun c => c = '/'))

/-- `splitKeySegments` (storage.ts line 9): split on `/` and keep the truthy
(non-empty) segments.  Nothing else is filtered: `.` and `..` survive. -/
def splitKeySegments (key : String) : List String :=
  (splitSlash (normalizeKey key)).filter (fun s => s ≠ "")

/-- Segment resolution of Node `path.posix.normalize`: `.` is dropped, `..`
pops the previous segment (or is dropped at the root of an absolute path, or
kept at the head of a relative path).  The accumulator holds the resolved
segments in reverse. -/
def posixNormalizeCore (isAbs : Bool) (segs : List String) : List String :=
  (segs.foldl (fun st seg =>
    if seg = "." then st
    else if seg = ".." then
      match st with
      | [] => if isAbs then [] else [".."]
      | top :: rest => if top = ".." then ".." :: st else rest
    else seg :: st) []).reverse

/-- Node `path.posix.normalize` on a path without a trailing slash. -/
def posixNormalize (p : String) : String :=
  let isAbs := strStartsWith p "/"
  let segs := (splitSlash p).filter (fun s => s ≠ "")
  let body := joinSlash (posixNormalizeCore isAbs segs)
  if isAbs then String.mk ('/' :: body.toList)
  else if body = "" then "." else body

/-- Node `path.posix.join`: drop empty arguments, join with `/`, normalize;
the empty join is `"."`. -/
def jsPathJoin (parts : List String) : String :=
  let joined := joinSlash (parts.filter (fun s => s ≠ ""))
  if joined = "" then "." else posixNormalize joined

/-- `toLocalPath` (storage.ts line 11): `path.join(STORAGE_ROOT, ...splitKeySegments(key))`. -/
def toLocalPath (root key : String) : String :=
  jsPathJoin (root :: splitKeySegments key)

/-- Node POSIX `path.isAbsolute`. -/
def jsIsAbsolute (p : String) : Bool := strStartsWith p "/"

/-- JavaScript truthiness of an optional string (undefined and `""` are falsy). -/
def jsTruthyStr : Option String → Bool
  | none => false
  | some s => !s.isEmpty

/-- The two storage drivers of storage.ts (`type StorageDriver = "local" | "bucket"`;
`local` is a Lean keyword, hence the constructor name `localDisk`). -/
inductive StorageDriver
  | localDisk
  | bucket
deriving DecidableEq

/-- A fetch `Response` as far as the drivers inspect it: status and body text. -/
structure BucketResponse where
  status : Nat
  body : String

/-- `Response.ok`: status in the range 200-299. -/
def responseOk (r : BucketResponse) : Bool := 200 ≤ r.status && r.status ≤ 299

/-- The error outcomes storage.ts distinguishes: an `ENOENT`-coded error
("Object not found" / a missing file), a non-2xx non-404 HTTP outcome carrying
status and body, and a configuration error raised before any I/O. -/
inductive StorageError
  | enoent
  | transport (status : Nat) (body : String)
  | config (msg : String)
deriving DecidableEq

/-!
## storage.ts: AWS Signature Version 4 signer

The signer composes SHA-256 and HMAC-SHA-256, which are `node:crypto`
platform primitives, not repository code; they enter the model as the
function parameters `shaHex` (hex digest of a byte sequence) and `hmac`
(key and message bytes to digest bytes).  Byte sequences are `List Nat`
(UTF-8 bytes of the strings involved).
-/

/-- UTF-8 bytes of one scalar value (the encoding `Buffer.from(s, "utf8")`
and `encodeURIComponent` operate on). -/
def utf8Bytes (c : Char) : List Nat :=
  let n := c.toNat
  if n < 0x80 then [n]
  else if n < 0x800 then [0xC0 + n / 64, 0x80 + n % 64]
  else if n < 0x10000 then [0xE0 + n / 4096, 0x80 + (n / 64) % 64, 0x80 + n % 64]
  else [0xF0 + n / 262144, 0x80 + (n / 4096) % 64, 0x80 + (n / 64) % 64, 0x80 + n % 64]

/-- UTF-8 byte sequence of a string. -/
def strUtf8 (s : String) : List Nat := s.toList.flatMap utf8Bytes

/-- Uppercase hex digit (as used by the percent-escapes of
`encodeURIComponent` and the `.toUpperCase()` escapes of the source). -/
def hexDigitUpper (n : Nat) : Char :=
  if n < 10 then Char.ofNat (48 + n) else Char.ofNat (55 + n)

/-- Lowercase hex digit (as used by `digest("hex")`). -/
def hexDigitLower (n : Nat) : Char :=
  if n < 10 then Char.ofNat (48 + n) else Char.ofNat (87 + n)

/-- `%XY` percent-escape of a byte, uppercase. -/
def percentByte (b : Nat) : List Char :=
  ['%', hexDigitUpper (b / 16 % 16), hexDigitUpper (b % 16)]

/-- Lowercase hex rendering of a byte sequence (`Buffer#digest("hex")`). -/
def toHexLower (bytes : List Nat) : String :=
  String.mk (bytes.flatMap (fun b => [hexDigitLower (b / 16 % 16), hexDigitLower (b % 16)]))

/-- JavaScript `encodeURIComponent`: percent-encode every UTF-8 byte except
the unreserved set `A-Z a-z 0-9 - _ . ! ~ * ' ( )`. -/
def jsEncodeURIComponent (s : String) : String :=
  String.mk ((strUtf8 s).flatMap (fun b =>
    if (65 ≤ b ∧ b ≤ 90) ∨ (97 ≤ b ∧ b ≤ 122) ∨ (48 ≤ b ∧ b ≤ 57) ∨
        b = 45 ∨ b = 95 ∨ b = 46 ∨ b = 33 ∨ b = 126 ∨ b = 42 ∨ b = 39 ∨ b = 40 ∨ b = 41
    then [Char.ofNat b] else percentByte b))

/-- `encodeRfc3986` (storage.ts line 50): `encodeURIComponent` followed by
escaping `! ' ( ) *` (char codes 33, 39, 40, 41, 42); the trailing
`%20` replacement of the source is the identity. -/
def encodeRfc3986 (value : String) : String :=
  String.mk ((jsEncodeURIComponent value).toList.flatMap (fun c =>
    if c.toNat = 33 ∨ c.toNat = 39 ∨ c.toNat = 40 ∨ c.toNat = 41 ∨ c.toNat = 42
    then percentByte c.toNat else [c]))

/-- The module configuration of storage.ts (env-derived constants), as far as
the bucket signer consumes it.  `bucketPrefixValue` models `bucketPrefix`
(already stripped of surrounding slashes); the endpoint URL is split into
hostname and optional port as the `URL` object exposes them. -/
structure BucketConfig where
  bucketName : Option String
  bucketPrefixValue : Option String
  bucketRegion : String
  endpointHostname : String
  endpointPort : Option String
  accessKeyId : Option String
  secretAccessKey : Option String
  sessionToken : Option String
  usePathStyle : Bool

/-- `buildEncodedKey` (storage.ts line 55). -/
def buildEncodedKey (key : String) : String :=
  joinSlash ((splitKeySegments key).map encodeRfc3986)

/-- `buildBucketKey` (storage.ts line 57). -/
def buildBucketKey (cfg : BucketConfig) (key : String) : String :=
  let normalized := normalizeKey key
  let withPrefixed := if jsTruthyStr cfg.bucketPrefixValue
    then cfg.bucketPrefixValue.getD "" ++ "/" ++ normalized else normalized
  buildEncodedKey withPrefixed

/-- `getSigningKey` (storage.ts line 65): the four-step HMAC-SHA-256 chain
over `"AWS4" + secret`, the date stamp, the region, `"s3"`, `"aws4_request"`. -/
def getSigningKey (hmac : List Nat → List Nat → List Nat) (cfg : BucketConfig)
    (dateStamp : String) : Except StorageError (List Nat) :=
  if !jsTruthyStr cfg.secretAccessKey then
    .error (.config "Missing STORAGE_BUCKET_SECRET_ACCESS_KEY or AWS_SECRET_ACCESS_KEY")
  else
    let kDate := hmac (strUtf8 ("AWS4" ++ cfg.secretAccessKey.getD "")) (strUtf8 dateStamp)
    let kRegion := hmac kDate (strUtf8 cfg.bucketRegion)
    let kService := hmac kRegion (strUtf8 "s3")
    .ok (hmac kService (strUtf8 "aws4_request"))

/-- `formatAmzDate` (storage.ts line 76): strip `-` and `:` from the ISO
string and drop everything from the first `.` on. -/
def formatAmzDate (iso : String) : String :=
  String.mk ((iso.toList.takeWhile (fun c => c ≠ '.')).filter
    (fun c => c ≠ '-' ∧ c ≠ ':'))

/-- JavaScript `String#trim`. -/
def jsTrim (s : String) : String :=
  String.mk (((s.toList.dropWhile Char.isWhitespace).reverse.dropWhile
    Char.isWhitespace).reverse)

/-- Lexicographic UTF-16 code-unit comparison, the default JavaScript
`Array#sort` comparator on strings (all header names are ASCII). -/
def charListLe : List Char → List Char → Bool
  | [], _ => true
  | _ :: _, [] => false
  | a :: as, b :: bs =>
    if a.toNat < b.toNat then true
    else if b.toNat < a.toNat then false
    else charListLe as bs

/-- String comparison used for `Object.keys(...).sort()`. -/
def strLe (a b : String) : Bool := charListLe a.toList b.toList

/-- Insertion into a sorted list of strings. -/
def insertSorted (x : String) : List String → List String
  | [] => [x]
  | y :: ys => if strLe x y then x :: y :: ys else y :: insertSorted x ys

/-- Sorting (`Array#sort` on header names). -/
def sortStrings (l : List String) : List String := l.foldr insertSorted []

/-- `signingHeaders[name]` lookup in the header record. -/
def headerLookup (hs : List (String × String)) (n : String) : String :=
  (((hs.find? (fun p => p.1 = n)).map (fun p => p.2)).getD "")

/-- JavaScript `Array#join(sep)`. -/
def joinWith (sep : String) : List String → String
  | [] => ""
  | [x] => x
  | x :: y :: xs => x ++ sep ++ joinWith sep (y :: xs)

/-- `url.host` of a hostname and optional port. -/
def hostOf (hostname : String) (port : Option String) : String :=
  hostname ++ (match port with | none => "" | some p => ":" ++ p)

/-- The signing-header record built by `sendBucketRequest` (storage.ts lines
96-121): `host` (virtual-hosted style prepends the bucket to the endpoint
hostname, keeping the port), `x-amz-date`, `x-amz-content-sha256`, then the
optional `x-amz-security-token` and `content-type`. -/
def signingHeaderSet (cfg : BucketConfig) (amzDate payloadHash : String)
    (contentType : Option String) : List (String × String) :=
  let host := if cfg.usePathStyle then hostOf cfg.endpointHostname cfg.endpointPort
    else hostOf (cfg.bucketName.getD "" ++ "." ++ cfg.endpointHostname) cfg.endpointPort
  [("host", host), ("x-amz-date", amzDate), ("x-amz-content-sha256", payloadHash)]
  ++ (if jsTruthyStr cfg.sessionToken
      then [("x-amz-security-token", cfg.sessionToken.getD "")] else [])
  ++ (if jsTruthyStr contentType then [("content-type", contentType.getD "")] else [])

/-- The request-signing part of `sendBucketRequest` (storage.ts lines 78-142):
configuration checks, then canonical request, credential scope,
string-to-sign, signing key, signature, and the `Authorization` header value.
Returns the header value together with the signed-header list and amz-date. -/
def sendBucketRequestAuth (hmac : List Nat → List Nat → List Nat)
    (shaHex : List Nat → String) (cfg : BucketConfig) (method : String)
    (key : String) (body : Option (List Nat)) (contentType : Option String)
    (isoNow : String) : Except StorageError (String × String × String) :=
  if !jsTruthyStr cfg.bucketName then
    .error (.config "Missing STORAGE_BUCKET_NAME for bucket storage")
  else if !jsTruthyStr cfg.accessKeyId || !jsTruthyStr cfg.secretAccessKey then
    .error (.config "Missing STORAGE_BUCKET_ACCESS_KEY_ID/SECRET or AWS_ACCESS_KEY_ID/AWS_SECRET_ACCESS_KEY for bucket storage")
  else
    let encodedKey := buildBucketKey cfg key
    let amzDate := formatAmzDate isoNow
    let dateStamp := String.mk (amzDate.toList.take 8)
    let payload := body.getD []
    let payloadHash := shaHex payload
    let signingHeaders := signingHeaderSet cfg amzDate payloadHash contentType
    let sortedHeaderNames := sortStrings (signingHeaders.map (fun p => p.1))
    let canonicalHeaders := joinWith "\n"
      (sortedHeaderNames.map (fun n => n ++ ":" ++ jsTrim (headerLookup signingHeaders n)))
    let signedHeaders := joinWith ";" sortedHeaderNames
    let canonicalUri := if cfg.usePathStyle
      then "/" ++ cfg.bucketName.getD "" ++ "/" ++ encodedKey else "/" ++ encodedKey
    let canonicalRequest := joinWith "\n"
      [method, canonicalUri, "", canonicalHeaders ++ "\n", signedHeaders, payloadHash]
    let credentialScope := dateStamp ++ "/" ++ cfg.bucketRegion ++ "/s3/aws4_request"
    let stringToSign := joinWith "\n"
      ["AWS4-HMAC-SHA256", amzDate, credentialScope, shaHex (strUtf8 canonicalRequest)]
    match getSigningKey hmac cfg dateStamp with
    | .error e => .error e
    | .ok signingKey =>
      let signature := toHexLower (hmac signingKey (strUtf8 stringToSign))
      .ok ("AWS4-HMAC-SHA256 Credential=" ++ cfg.accessKeyId.getD "" ++ "/" ++
            credentialScope ++ ", SignedHeaders=" ++ signedHeaders ++
            ", Signature=" ++ signature,
        signedHeaders, amzDate)

/-!
## Specification-side SigV4 (spec.md section 4.3, steps 1-8)

These definitions transcribe the spec text for the signing protocol, to be
compared with the source-side `sendBucketRequestAuth` above.
-/

/-- Spec step 3: canonical request
`METHOD\nCANONICAL_URI\n\nCANONICAL_HEADERS\n\nSIGNED_HEADERS\nPAYLOAD_HASH`,
with canonical headers name-sorted, one `name:value` (trimmed) per line, and
the signed-header list joined with `;`. -/
def specSigV4CanonicalRequest (method canonicalUri : String)
    (headers : List (String × String)) (payloadHash : String) : String :=
  let names := sortStrings (headers.map (fun p => p.1))
  let canonicalHeaders := joinWith "\n"
    (names.map (fun n => n ++ ":" ++ jsTrim (headerLookup headers n)))
  let signedHeaders := joinWith ";" names
  joinWith "\n" [method, canonicalUri, "", canonicalHeaders ++ "\n", signedHeaders, payloadHash]

/-- Spec step 5: credential scope `YYYYMMDD/REGION/s3/aws4_request`. -/
def specSigV4CredentialScope (dateStamp region : String) : String :=
  dateStamp ++ "/" ++ region ++ "/s3/aws4_request"

/-- Spec step 6: string-to-sign
`AWS4-HMAC-SHA256\nAMZ_DATE\nCREDENTIAL_SCOPE\nhex(SHA256(canonicalRequest))`. -/
def specSigV4StringToSign (shaHex : List Nat → String) (amzDate scope cReq : String) :
    String :=
  joinWith "\n" ["AWS4-HMAC-SHA256", amzDate, scope, shaHex (strUtf8 cReq)]

/-- Spec step 7: `kSigning` via the four-step HMAC chain
`kDate = HMAC("AWS4"+secretKey, dateStamp)`, `kRegion = HMAC(kDate, region)`,
`kService = HMAC(kRegion, "s3")`, `kSigning = HMAC(kService, "aws4_request")`. -/
def specSigV4SigningKey (hmac : List Nat → List Nat → List Nat)
    (secretKey dateStamp region : String) : List Nat :=
  hmac (hmac (hmac (hmac (strUtf8 ("AWS4" ++ secretKey)) (strUtf8 dateStamp))
    (strUtf8 region)) (strUtf8 "s3")) (strUtf8 "aws4_request")

/-- Spec step 8: `signature = hex(HMAC(kSigning, stringToSign))` and
`Authorization: AWS4-HMAC-SHA256 Credential=ACCESS_KEY/SCOPE,
SignedHeaders=..., Signature=...`. -/
def specSigV4Authorization (hmac : List Nat → List Nat → List Nat)
    (shaHex : List Nat → String) (accessKey secretKey region : String)
    (method canonicalUri : String) (headers : List (String × String))
    (amzDate dateStamp : String) (payloadHash : String) : String :=
  let scope := specSigV4CredentialScope dateStamp region
  let cReq := specSigV4CanonicalRequest method canonicalUri headers payloadHash
  let sts := specSigV4StringToSign shaHex amzDate scope cReq
  let kSigning := specSigV4SigningKey hmac secretKey dateStamp region
  let signature := toHexLower (hmac kSigning (strUtf8 sts))
  let names := sortStrings (headers.map (fun p => p.1))
  "AWS4-HMAC-SHA256 Credential=" ++ accessKey ++ "/" ++ scope ++
    ", SignedHeaders=" ++ joinWith ";" names ++ ", Signature=" ++ signature

/-- The canonical URI per spec step 4: path-style `/bucket/key` or
virtual-hosted style `/key` with percent-encoded key segments. -/
def specSigV4CanonicalUri (cfg : BucketConfig) (key : String) : String :=
  if cfg.usePathStyle then "/" ++ cfg.bucketName.getD "" ++ "/" ++ buildBucketKey cfg key
  else "/" ++ buildBucketKey cfg key

/-- C2.  On any fixed input (credentials, region, bucket, key, method, payload,
content type, request date) with the bucket configured, the signer produces
exactly the Authorization header prescribed by the spec: the hex HMAC-SHA256
signature under the four-step-chained signing key of the string-to-sign built
from the amz-date, credential scope, and hashed canonical request, formatted
as `AWS4-HMAC-SHA256 Credential=KEY/SCOPE, SignedHeaders=..., Signature=...`. -/
theorem sendBucketRequestAuth_matches_spec (hmac : List Nat → List Nat → List Nat)
    (shaHex : List Nat → String) (cfg : BucketConfig) (method key : String)
    (body : Option (List Nat)) (contentType : Option String) (isoNow : String)
    (h1 : jsTruthyStr cfg.bucketName = true)
    (h2 : jsTruthyStr cfg.accessKeyId = true)
    (h3 : jsTruthyStr cfg.secretAccessKey = true) :
    sendBucketRequestAuth hmac shaHex cfg method key body contentType isoNow
      = .ok (specSigV4Authorization hmac shaHex (cfg.accessKeyId.getD "")
              (cfg.secretAccessKey.getD "") cfg.bucketRegion method
              (specSigV4CanonicalUri cfg key)
              (signingHeaderSet cfg (formatAmzDate isoNow) (shaHex (body.getD []))
                contentType)
              (formatAmzDate isoNow)
              (String.mk ((formatAmzDate isoNow).toList.take 8))
              (shaHex (body.getD [])),
          joinWith ";"
            (sortStrings ((signingHeaderSet cfg (formatAmzDate isoNow)
              (shaHex (body.getD [])) contentType).map (fun p => p.1))),
          formatAmzDate isoNow) := by
  simp only [sendBucketRequestAuth, getSigningKey, h1, h2, h3, Bool.not_true,
    Bool.false_eq_true, if_false, Bool.false_or]
  rfl

theorem sendBucketRequestAuth_matches_spec_witness :
    sendBucketRequestAuth (fun _ m => m) toHexLower
        ⟨some "bkt", none, "us-east-1", "s3.us-east-1.amazonaws.com", none,
         some "AKID", some "SECRET", none, false⟩
        "GET" "a/b.txt" none none "2013-05-24T00:00:00.000Z"
      = .ok (specSigV4Authorization (fun _ m => m) toHexLower "AKID" "SECRET"
          "us-east-1" "GET"
          (specSigV4CanonicalUri
            ⟨some "bkt", none, "us-east-1", "s3.us-east-1.amazonaws.com", none,
             some "AKID", some "SECRET", none, false⟩ "a/b.txt")
          (signingHeaderSet
            ⟨some "bkt", none, "us-east-1", "s3.us-east-1.amazonaws.com", none,
             some "AKID", some "SECRET", none, false⟩
            (formatAmzDate "2013-05-24T00:00:00.000Z") (toHexLower []) none)
          (formatAmzDate "2013-05-24T00:00:00.000Z")
          (String.mk ((formatAmzDate "2013-05-24T00:00:00.000Z").toList.take 8))
          (toHexLower []),
        joinWith ";"
          (sortStrings ((signingHeaderSet
            ⟨some "bkt", none, "us-east-1", "s3.us-east-1.amazonaws.com", none,
             some "AKID", some "SECRET", none, false⟩
            (formatAmzDate "2013-05-24T00:00:00.000Z") (toHexLower []) none).map
              (fun p => p.1))),
        formatAmzDate "2013-05-24T00:00:00.000Z") :=
  sendBucketRequestAuth_matches_spec (fun _ m => m) toHexLower
    ⟨some "bkt", none, "us-east-1", "s3.us-east-1.amazonaws.com", none,
     some "AKID", some "SECRET", none, false⟩
    "GET" "a/b.txt" none none "2013-05-24T00:00:00.000Z"
    (by decide) (by decide) (by decide)

/-!
## storage.ts: drivers

All I/O is abstracted into the `StorageEnv` oracle record: the HMAC and
SHA-256 primitives, the network (`respond`: method and key to the HTTP
response), the local filesystem (`fs`: absolute path to content, `none` when
missing), the storage root, and the current ISO timestamp.
-/

structure StorageEnv where
  hmac : List Nat → List Nat → List Nat
  shaHex : List Nat → String
  respond : String → String → BucketResponse
  fs : String → Option String
  root : String
  isoNow : String

/-- `sendBucketRequest` (storage.ts lines 78-161): the auth construction of
`sendBucketRequestAuth` followed by the `fetch`, whose outcome is the
`respond` oracle. -/
def sendBucketRequest (env : StorageEnv) (cfg : BucketConfig) (method key : String)
    (body : Option (List Nat)) (contentType : Option String) :
    Except StorageError BucketResponse :=
  match sendBucketRequestAuth env.hmac env.shaHex cfg method key body contentType
      env.isoNow with
  | .error e => .error e
  | .ok _ => .ok (env.respond method key)

/-- `bucketRead` (storage.ts line 163): 404 becomes an `ENOENT`-coded error,
any other non-2xx outcome a transport error with status and body. -/
def bucketRead (env : StorageEnv) (cfg : BucketConfig) (key : String) :
    Except StorageError String :=
  match sendBucketRequest env cfg "GET" key none none with
  | .error e => .error e
  | .ok response =>
    if response.status = 404 then .error .enoent
    else if !responseOk response then .error (.transport response.status response.body)
    else .ok response.body

/-- `bucketDelete` (storage.ts line 187): non-2xx other than 404 is a
transport error; 404 is success. -/
def bucketDelete (env : StorageEnv) (cfg : BucketConfig) (key : String) :
    Except StorageError Unit :=
  match sendBucketRequest env cfg "DELETE" key none none with
  | .error e => .error e
  | .ok response =>
    if !responseOk response && response.status ≠ 404 then
      .error (.transport response.status response.body)
    else .ok ()

/-- `createNotFoundError` (storage.ts line 195): an `ENOENT`-coded error. -/
def createNotFoundError : StorageError := .enoent

/-- `fs.unlink`: fails with `ENOENT` when the path is missing. -/
def unlinkModel (fs : String → Option String) (p : String) : Except StorageError Unit :=
  match fs p with
  | some _ => .ok ()
  | none => .error .enoent

/-- `readStorageFile` (storage.ts line 211): local driver reads the resolved
local path (`readFile` raising `ENOENT` when missing); bucket driver maps an
`ENOENT`-coded `bucketRead` failure to `createNotFoundError`. -/
def readStorageFile (driver : StorageDriver) (env : StorageEnv) (cfg : BucketConfig)
    (relativePath : String) : Except StorageError String :=
  match driver with
  | .localDisk =>
    match env.fs (toLocalPath env.root relativePath) with
    | some content => .ok content
    | none => .error .enoent
  | .bucket =>
    match bucketRead env cfg relativePath with
    | .ok buffer => .ok buffer
    | .error .enoent => .error createNotFoundError
    | .error e => .error e

/-- `deleteStorageFile` (storage.ts line 252): the local driver unlinks (the
raw path when absolute, the resolved path otherwise) and swallows `ENOENT`;
the bucket driver delegates to `bucketDelete`. -/
def deleteStorageFile (driver : StorageDriver) (env : StorageEnv) (cfg : BucketConfig)
    (relativePath : String) : Except StorageError Unit :=
  match driver with
  | .localDisk =>
    if jsIsAbsolute relativePath then
      match unlinkModel env.fs relativePath with
      | .error .enoent => .ok ()
      | .error e => .error e
      | .ok _ => .ok ()
    else
      match unlinkModel env.fs (toLocalPath env.root (normalizeKey relativePath)) with
      | .error .enoent => .ok ()
      | .error e => .error e
      | .ok _ => .ok ()
  | .bucket => bucketDelete env cfg relativePath

/-- C4.  For both drivers: reading a missing key fails with the `ENOENT`
not-found error (the bucket driver maps an HTTP 404 GET response to it), and
deleting a missing key succeeds silently (the bucket driver treats an HTTP
404 DELETE response as success; the local driver swallows the missing-file
`ENOENT` from unlink). -/
theorem storage_notfound_read_and_idempotent_delete (env : StorageEnv)
    (cfg : BucketConfig) (key : String)
    (hcfg1 : jsTruthyStr cfg.bucketName = true)
    (hcfg2 : jsTruthyStr cfg.accessKeyId = true)
    (hcfg3 : jsTruthyStr cfg.secretAccessKey = true) :
    (env.fs (toLocalPath env.root key) = none →
      readStorageFile .localDisk env cfg key = .error .enoent)
    ∧ ((env.respond "GET" key).status = 404 →
      readStorageFile .bucket env cfg key = .error .enoent)
    ∧ (jsIsAbsolute key = false →
      env.fs (toLocalPath env.root (normalizeKey key)) = none →
      deleteStorageFile .localDisk env cfg key = .ok ())
    ∧ ((env.respond "DELETE" key).status = 404 →
      deleteStorageFile .bucket env cfg key = .ok ()) := by
  have hauth := sendBucketRequestAuth_matches_spec env.hmac env.shaHex cfg "GET" key
    none none env.isoNow hcfg1 hcfg2 hcfg3
  have hauthD := sendBucketRequestAuth_matches_spec env.hmac env.shaHex cfg "DELETE" key
    none none env.isoNow hcfg1 hcfg2 hcfg3
  refine ⟨?_, ?_, ?_, ?_⟩
  · intro hmiss
    simp [readStorageFile, hmiss]
  · intro h404
    simp [readStorageFile, bucketRead, sendBucketRequest, hauth, h404, createNotFoundError]
  · intro habs hmiss
    simp [deleteStorageFile, habs, unlinkModel, hmiss]
  · intro h404
    simp [deleteStorageFile, bucketDelete, sendBucketRequest, hauthD, h404]

theorem storage_notfound_read_and_idempotent_delete_witness :
    readStorageFile .localDisk
        ⟨fun _ m => m, toHexLower, fun _ _ => ⟨404, "missing"⟩, fun _ => none,
         "/app/storage", "2013-05-24T00:00:00.000Z"⟩
        ⟨some "bkt", none, "us-east-1", "s3.us-east-1.amazonaws.com", none,
         some "AKID", some "SECRET", none, false⟩ "u1/activities.json"
      = .error .enoent
    ∧ readStorageFile .bucket
        ⟨fun _ m => m, toHexLower, fun _ _ => ⟨404, "missing"⟩, fun _ => none,
         "/app/storage", "2013-05-24T00:00:00.000Z"⟩
        ⟨some "bkt", none, "us-east-1", "s3.us-east-1.amazonaws.com", none,
         some "AKID", some "SECRET", none, false⟩ "u1/activities.json"
      = .error .enoent
    ∧ deleteStorageFile .localDisk
        ⟨fun _ m => m, toHexLower, fun _ _ => ⟨404, "missing"⟩, fun _ => none,
         "/app/storage", "2013-05-24T00:00:00.000Z"⟩
        ⟨some "bkt", none, "us-east-1", "s3.us-east-1.amazonaws.com", none,
         some "AKID", some "SECRET", none, false⟩ "u1/activities.json"
      = .ok ()
    ∧ deleteStorageFile .bucket
        ⟨fun _ m => m, toHexLower, fun _ _ => ⟨404, "missing"⟩, fun _ => none,
         "/app/storage", "2013-05-24T00:00:00.000Z"⟩
        ⟨some "bkt", none, "us-east-1", "s3.us-east-1.amazonaws.com", none,
         some "AKID", some "SECRET", none, false⟩ "u1/activities.json"
      = .ok () := by
  have h := storage_notfound_read_and_idempotent_delete
    ⟨fun _ m => m, toHexLower, fun _ _ => ⟨404, "missing"⟩, fun _ => none,
     "/app/storage", "2013-05-24T00:00:00.000Z"⟩
    ⟨some "bkt", none, "us-east-1", "s3.us-east-1.amazonaws.com", none,
     some "AKID", some "SECRET", none, false⟩ "u1/activities.json"
    (by decide) (by decide) (by decide)
  exact ⟨h.1 rfl, h.2.1 rfl, h.2.2.1 (by decide) rfl, h.2.2.2 rfl⟩

/-- C6 counterexample: the key `"../secret"` is not rejected (its `..` segment
survives `splitKeySegments`) and resolves to `/app/secret`, which is not under
the storage root `/app/storage`. -/
theorem local_key_escapes_storage_root :
    splitKeySegments "../secret" = ["..", "secret"]
    ∧ toLocalPath "/app/storage" "../secret" = "/app/secret"
    ∧ strStartsWith "/app/secret" "/app/storage" = false := by
  refine ⟨by decide, by decide, by decide⟩

/-- C6 amended: the local driver rejects only empty segments; `.` and `..`
segments pass through `splitKeySegments` unchanged, and a leading-`..` key
resolves (via `path.join` normalization) strictly outside the storage root. -/
theorem splitKeySegments_keeps_dot_segments :
    (∀ key : String, ∀ seg ∈ splitKeySegments key, seg ≠ "")
    ∧ ".." ∈ splitKeySegments "../secret"
    ∧ toLocalPath "/app/storage" "../secret" = "/app/secret"
    ∧ strStartsWith "/app/secret" "/app/storage" = false := by
  refine ⟨?_, by decide, by decide, by decide⟩
  intro key seg h
  rw [splitKeySegments, List.mem_filter] at h
  simpa using h.2

theorem splitKeySegments_keeps_dot_segments_witness : ("secret" : String) ≠ "" :=
  splitKeySegments_keeps_dot_segments.1 "../secret" "secret" (by decide)

/-!
## Strava sync module (the second document of activity-storage.ts)

External effects enter as oracles: `isoOfMs`/`nowMs` for the `Date` platform
(timestamps are epoch milliseconds; `start_date` strings are modelled by
their parsed epoch milliseconds, absent/empty values by `none`), `uuids` for
`randomUUID` (indexed by position in the batch), `distanceOf` for the
haversine `calculatePolylineDistance` (transcendental, so not representable
exactly), `refreshOracle` for the provider refresh-token endpoint, and
`listActivities` for the paginated activity-list endpoint (`after`, `page`).
-/

/-- JavaScript truthiness of an optional number (undefined, `0` and NaN are
falsy; NaN does not arise for the integer-modelled fields). -/
def jsTruthyNum : Option Int → Bool
  | none => false
  | some n => n != 0

structure StravaAthlete where
  id : Option Int
  firstname : Option String
  lastname : Option String
  username : Option String
  profile : Option String
deriving DecidableEq

structure StravaSyncSummary where
  attemptedAt : Int
  imported : Nat
  considered : Nat
deriving DecidableEq

structure StoredStravaState where
  accessToken : Option String
  refreshToken : Option String
  expiresAt : Option Int
  athlete : Option StravaAthlete
  importedActivityIds : Option (List Int)
  lastActivityCursor : Option Int
  lastSyncSummary : Option StravaSyncSummary
  pendingAuthState : Option String
deriving DecidableEq

structure RefreshTokenResponse where
  access_token : String
  refresh_token : String
  expires_at : Int

structure TokenExchangeResult where
  access_token : Option String
  refresh_token : Option String
  expires_at : Option Int
  athlete : Option StravaAthlete
deriving DecidableEq

structure BaseStravaConfig where
  clientId : Option String
  clientSecret : Option String
  redirectUri : Option String

/-- `getBaseConfig`: `null` unless client id, secret, and redirect URI are all
set and non-empty. -/
def getBaseConfig (c : BaseStravaConfig) : Option (String × String × String) :=
  if !jsTruthyStr c.clientId || !jsTruthyStr c.clientSecret || !jsTruthyStr c.redirectUri
  then none
  else some (c.clientId.getD "", c.clientSecret.getD "", c.redirectUri.getD "")

/-- A `DetailedActivityResponse` as far as the sync engine inspects it.
`legacyType` models the legacy `type` field (`type` is a Lean keyword);
the two polyline fields model `activity.map?.summary_polyline` and
`activity.map?.polyline` as char-code lists. -/
structure StravaActivity where
  id : Int
  name : Option String
  sport_type : Option String
  legacyType : Option String
  mapSummaryPolyline : Option (List Int)
  mapPolyline : Option (List Int)
  start_date : Option Int
deriving DecidableEq

/-- `STRAVA_SPORT_MAP` as a lookup function (sports are modelled by their
string literals from lib/sports). -/
def STRAVA_SPORT_MAP : String → Option String
  | "Run" => some "walking"
  | "TrailRun" => some "walking"
  | "Walk" => some "walking"
  | "Hike" => some "hiking"
  | "AlpineSki" => some "alpine-ski"
  | "BackcountrySki" => some "touring-ski"
  | "NordicSki" => some "nordic-ski"
  | "CrossCountrySki" => some "nordic-ski"
  | "SkateSki" => some "nordic-ski"
  | "GravelRide" => some "gravel-cycling"
  | "Ride" => some "road-cycling"
  | "VirtualRide" => some "road-cycling"
  | "EBikeRide" => some "road-cycling"
  | "E_BikeRide" => some "road-cycling"
  | "MountainBikeRide" => some "mountain-cycling"
  | "EMountainBikeRide" => some "mountain-cycling"
  | _ => none

/-- `resolveSport`: `sport_type ?? type`, falsy result is `null`, then the
sport-map lookup (`?? null`). -/
def resolveSport (a : StravaActivity) : Option String :=
  match a.sport_type.orElse (fun _ => a.legacyType) with
  | none => none
  | some t => if t = "" then none else STRAVA_SPORT_MAP t

/-- `escapeXml`: the five sequential regex replaces are equivalent to this
single character map (the `&` pass runs first, and no later pass rewrites the
`&` of an inserted entity because only original `< > \x22 \x27` chars are
replaced afterwards). -/
def escapeXml (value : String) : String :=
  String.mk (value.toList.flatMap (fun c =>
    if c = '&' then "&amp;".toList
    else if c = '<' then "&lt;".toList
    else if c = '>' then "&gt;".toList
    else if c.toNat = 34 then "&quot;".toList
    else if c.toNat = 39 then "&apos;".toList
    else [c]))

/-- `toIsoDate`: falsy or invalid input renders the current time; a parsed
date renders itself (`isoOfMs` is the `Date#toISOString` oracle). -/
def toIsoDate (isoOfMs : Int → String) (nowMs : Int) : Option Int → String
  | none => isoOfMs nowMs
  | some ms => isoOfMs ms

/-- JavaScript `Number#toFixed(6)` on the exact rationals produced by the
polyline decoder (multiples of 1e-5, where the float double-rounding of the
real `toFixed` is exact). -/
def jsToFixed6 (q : ℚ) : String :=
  let n := round (q * 1000000)
  let m := n.natAbs
  let ds := toString (m % 1000000)
  (if n < 0 then "-" else "") ++ toString (m / 1000000) ++ "." ++
    (String.mk (List.replicate (6 - ds.length) '0') ++ ds)

/-- `buildGpxContents`: the synthesized GPX document. -/
def buildGpxContents (isoOfMs : Int → String) (nowMs : Int) (name : String)
    (startDate : Option Int) (points : List (ℚ × ℚ)) : String :=
  let safeName := escapeXml (if name = "" then "Strava Activity" else name)
  let trackPoints := joinWith "\n" (points.map (fun p =>
    "      <trkpt lat=\"" ++ jsToFixed6 p.1 ++ "\" lon=\"" ++ jsToFixed6 p.2 ++
      "\"></trkpt>"))
  joinWith "\n" [
    "<?xml version=\"1.0\" encoding=\"UTF-8\"?>",
    "<gpx version=\"1.1\" creator=\"GPX Grid Challenge\" xmlns=\"http://www.topografix.com/GPX/1/1\">",
    "  <metadata>",
    "    <name>" ++ safeName ++ "</name>",
    "    <time>" ++ toIsoDate isoOfMs nowMs startDate ++ "</time>",
    "  </metadata>",
    "  <trk>",
    "    <name>" ++ safeName ++ "</name>",
    "    <trkseg>",
    trackPoints,
    "    </trkseg>",
    "  </trk>",
    "</gpx>",
    ""]

/-- `decodePolyline` (the Strava module's inlined copy of the polyline
decoder): its two do-while group loops are verbatim the body of
`decodeValue`, and its while loop is the loop of `decodePoints`
(`POLYLINE_SCALE` equals `POINT_SCALE`). -/
def decodePolyline (encoded : List Int) : List (ℚ × ℚ) :=
  decodePointsAux encoded.length encoded 0 0

structure ActivityInput where
  name : String
  sport : String
  fileName : String
  points : List (ℚ × ℚ)
  rawGpx : String
deriving DecidableEq

/-- `buildActivityInput`: `null` for unmapped sports, missing/empty polylines
and tracks shorter than 2 points; otherwise the store-ready input with a
synthesized GPX document. -/
def buildActivityInput (isoOfMs : Int → String) (nowMs : Int)
    (activity : StravaActivity) : Option ActivityInput :=
  match resolveSport activity with
  | none => none
  | some sport =>
    match activity.mapSummaryPolyline.orElse (fun _ => activity.mapPolyline) with
    | none => none
    | some encodedPolyline =>
      if encodedPolyline = [] then none
      else
        let points := decodePolyline encodedPolyline
        if points.length < 2 then none
        else
          let name := if jsTrim (activity.name.getD "") = "" then "Strava activity"
            else jsTrim (activity.name.getD "")
          some ⟨name, sport, "strava-" ++ toString activity.id ++ ".gpx", points,
            buildGpxContents isoOfMs nowMs name activity.start_date points⟩

/-- An activity-catalog record as `storeActivities` creates it (the legacy
`gpxPath` record shape only occurs in pre-existing catalogs and is never
constructed here).  The compressed GeoJSON asset blob itself is written
outside the catalog and does not appear in it. -/
structure GeoJsonActivityRecord where
  id : String
  name : String
  sport : String
  fileName : String
  distanceKm : ℚ
  createdAt : Int
  encodedPoints : List Int
  geojsonPath : String
deriving DecidableEq

/-- `storeActivities` (activity-storage.ts line 202) as a pure catalog
transformation: an empty batch leaves the catalog untouched; otherwise each
entry gets a fresh id (`uuids` indexed by position), the current timestamp,
the encoded polyline, the oracle-computed distance, and a
`geojson/<id>.geojson.gz` asset path, and the new records are prepended to
the catalog.  Returns (new records, catalog after the write). -/
def storeActivities (uuids : Nat → String) (nowMs : Int)
    (distanceOf : List (ℚ × ℚ) → ℚ) (existing : List GeoJsonActivityRecord)
    (entries : List ActivityInput) :
    List GeoJsonActivityRecord × List GeoJsonActivityRecord :=
  if entries = [] then ([], existing)
  else
    let newRecords := entries.enum.map (fun ie =>
      let id := uuids ie.1
      let entry := ie.2
      (⟨id, entry.name, entry.sport, entry.fileName, distanceOf entry.points, nowMs,
        encodePoints entry.points, "geojson/" ++ id ++ ".geojson.gz"⟩ :
        GeoJsonActivityRecord))
    (newRecords, newRecords ++ existing)

structure StravaEnv where
  isoOfMs : Int → String
  nowMs : Int
  uuids : Nat → String
  distanceOf : List (ℚ × ℚ) → ℚ
  refreshOracle : String → RefreshTokenResponse
  listActivities : Int → Nat → List StravaActivity

def TOKEN_EXPIRY_BUFFER_SECONDS : Int := 60

def PER_PAGE : Nat := 50

def MAX_SYNC_PAGES : Nat := 3

def MAX_TRACKED_ACTIVITY_IDS : Nat := 500

/-- `ensureValidTokens` (Strava module): fails when unconfigured or when any
of the token triple is falsy; refreshes and persists when `expiresAt` is
within the 60-second buffer of now; otherwise returns the state unchanged.
The second component is the state-file content after the call. -/
def ensureValidTokens (env : StravaEnv) (cfg : BaseStravaConfig)
    (state : StoredStravaState) :
    Except String StoredStravaState × StoredStravaState :=
  if (getBaseConfig cfg).isNone then
    (.error "Missing Strava credentials. Set STRAVA_CLIENT_ID, STRAVA_CLIENT_SECRET, and STRAVA_REDIRECT_URI.",
     state)
  else if !jsTruthyStr state.accessToken || !jsTruthyStr state.refreshToken ||
      !jsTruthyNum state.expiresAt then
    (.error "Strava is not connected for this user.", state)
  else
    let now := Int.fdiv env.nowMs 1000
    if state.expiresAt.getD 0 ≤ now + TOKEN_EXPIRY_BUFFER_SECONDS then
      let refreshed := env.refreshOracle (state.refreshToken.getD "")
      let newState := { state with
        accessToken := some refreshed.access_token,
        refreshToken := some refreshed.refresh_token,
        expiresAt := some refreshed.expires_at }
      (.ok newState, newState)
    else
      (.ok state, state)

/-- `exchangeStravaCode` (Strava module): state-mismatch check (both the
pending nonce and the provided value must be truthy for it to fire), then the
token-payload completeness check, then the persisted next state with the
nonce cleared.  `tokenPayload` is the provider response for the supplied
code; the second component is the state file after the call (unchanged on
every error path, because the only write happens last). -/
def exchangeStravaCode (cfg : BaseStravaConfig) (tokenPayload : TokenExchangeResult)
    (state : StoredStravaState) (providedState : Option String) :
    Except String Unit × StoredStravaState :=
  if (getBaseConfig cfg).isNone then
    (.error "Missing Strava credentials. Set STRAVA_CLIENT_ID, STRAVA_CLIENT_SECRET, and STRAVA_REDIRECT_URI.",
     state)
  else if jsTruthyStr state.pendingAuthState && jsTruthyStr providedState &&
      state.pendingAuthState != providedState then
    (.error "State mismatch. Start the Strava connection again.", state)
  else if !jsTruthyStr tokenPayload.access_token || !jsTruthyStr tokenPayload.refresh_token ||
      !jsTruthyNum tokenPayload.expires_at then
    (.error "Unable to exchange code for tokens.", state)
  else
    let nextState := { state with
      accessToken := tokenPayload.access_token,
      refreshToken := tokenPayload.refresh_token,
      expiresAt := tokenPayload.expires_at,
      athlete := tokenPayload.athlete,
      pendingAuthState := none }
    (.ok (), nextState)

/-- The page loop of `fetchRecentActivities`: pages 1..`MAX_SYNC_PAGES`,
stopping on an empty page (nothing added) or a short page (added, then
stop). -/
def fetchGo (listActs : Int → Nat → List StravaActivity) (after : Int) :
    Nat → Nat → List StravaActivity → List StravaActivity
  | 0, _, collected => collected
  | fuel + 1, page, collected =>
    let pageResults := listActs after page
    if pageResults = [] then collected
    else if pageResults.length < PER_PAGE then collected ++ pageResults
    else fetchGo listActs after fuel (page + 1) (collected ++ pageResults)

/-- `fetchRecentActivities` (Strava module). -/
def fetchRecentActivities (listActs : Int → Nat → List StravaActivity)
    (after : Int) : List StravaActivity :=
  fetchGo listActs after MAX_SYNC_PAGES 1 []

/-- The running state of the `activities.forEach` loop in
`syncStravaActivities`. -/
structure ProcessAcc where
  inputs : List ActivityInput
  newImportedIds : List Int
  seenIds : List Int
  newestCursor : Int
deriving DecidableEq

/-- The `activities.forEach` body (Strava module, sync): skip ids already in
the seen set (without touching the cursor); parse; on success record the
input, the id (`Number.isFinite` always holds for the integer-modelled id)
and mark it seen; finally advance the cursor to the activity's start time
(`Math.floor(ms/1000)`, 0 when absent) if larger.  The JS `Set` is modelled
by a list with membership. -/
def processActivities (isoOfMs : Int → String) (nowMs : Int) :
    List StravaActivity → ProcessAcc → ProcessAcc
  | [], acc => acc
  | activity :: rest, acc =>
    let numericId := activity.id
    if numericId ∈ acc.seenIds then processActivities isoOfMs nowMs rest acc
    else
      let acc1 := match buildActivityInput isoOfMs nowMs activity with
        | some parsed =>
          (⟨acc.inputs ++ [parsed], acc.newImportedIds ++ [numericId],
            numericId :: acc.seenIds, acc.newestCursor⟩ : ProcessAcc)
        | none => acc
      let startDate := match activity.start_date with
        | some ms => Int.fdiv ms 1000
        | none => 0
      if startDate > acc1.newestCursor then
        processActivities isoOfMs nowMs rest
          ⟨acc1.inputs, acc1.newImportedIds, acc1.seenIds, startDate⟩
      else processActivities isoOfMs nowMs rest acc1

/-- `syncStravaActivities` (Strava module): valid tokens, fetch from the
cursor, the dedup/parse/cursor loop, store the accepted inputs, then persist
the updated dedup list (prepended new ids, capped at 500; the
`Number.isFinite` filter is the identity on integer-modelled ids), the
cursor (`newestCursor || after`), and the summary.  `catalog` is the per-user
activity catalog `storeActivities` appends to. -/
def syncStravaActivities (env : StravaEnv) (cfg : BaseStravaConfig)
    (state : StoredStravaState) (catalog : List GeoJsonActivityRecord) :
    Except String (StoredStravaState × List GeoJsonActivityRecord × StravaSyncSummary) :=
  match (ensureValidTokens env cfg state).1 with
  | .error e => .error e
  | .ok state1 =>
    let after := state1.lastActivityCursor.getD 0
    let activities := fetchRecentActivities env.listActivities after
    let res := processActivities env.isoOfMs env.nowMs activities
      ⟨[], [], state1.importedActivityIds.getD [], after⟩
    let storeRes := storeActivities env.uuids env.nowMs env.distanceOf catalog res.inputs
    let summary : StravaSyncSummary := ⟨env.nowMs, storeRes.1.length, activities.length⟩
    let orderedIds := (res.newImportedIds ++ state1.importedActivityIds.getD []).take
      MAX_TRACKED_ACTIVITY_IDS
    let nextState := { state1 with
      importedActivityIds := some orderedIds,
      lastActivityCursor := some (if res.newestCursor != 0 then res.newestCursor else after),
      lastSyncSummary := some summary }
    .ok (nextState, storeRes.2, summary)

/-!
## Observers for the sync pipeline
-/

/-- The state as `ensureValidTokens` leaves it on disk (equal to the state it
returns when it succeeds). -/
def syncStateAfterTokens (env : StravaEnv) (cfg : BaseStravaConfig)
    (state : StoredStravaState) : StoredStravaState :=
  (ensureValidTokens env cfg state).2

/-- The activity list a sync run fetches. -/
def syncFetched (env : StravaEnv) (cfg : BaseStravaConfig)
    (state : StoredStravaState) : List StravaActivity :=
  fetchRecentActivities env.listActivities
    ((syncStateAfterTokens env cfg state).lastActivityCursor.getD 0)

/-- The result of the dedup/parse/cursor loop of a sync run. -/
def syncProcessed (env : StravaEnv) (cfg : BaseStravaConfig)
    (state : StoredStravaState) : ProcessAcc :=
  processActivities env.isoOfMs env.nowMs (syncFetched env cfg state)
    ⟨[], [], (syncStateAfterTokens env cfg state).importedActivityIds.getD [],
      (syncStateAfterTokens env cfg state).lastActivityCursor.getD 0⟩

theorem ensureValidTokens_shape (env : StravaEnv) (cfg : BaseStravaConfig)
    (state : StoredStravaState) :
    (∃ e, (ensureValidTokens env cfg state).1 = .error e ∧
      (ensureValidTokens env cfg state).2 = state)
    ∨ (ensureValidTokens env cfg state).1 = .ok ((ensureValidTokens env cfg state).2) := by
  rw [ensureValidTokens]
  split
  · exact .inl ⟨_, rfl, rfl⟩
  · split
    · exact .inl ⟨_, rfl, rfl⟩
    · dsimp only
      split
      · exact .inr rfl
      · exact .inr rfl

/-- `ensureValidTokens` touches only the token triple. -/
theorem ensureValidTokens_preserves (env : StravaEnv) (cfg : BaseStravaConfig)
    (state : StoredStravaState) :
    (syncStateAfterTokens env cfg state).importedActivityIds = state.importedActivityIds
    ∧ (syncStateAfterTokens env cfg state).lastActivityCursor = state.lastActivityCursor
    ∧ (syncStateAfterTokens env cfg state).lastSyncSummary = state.lastSyncSummary
    ∧ (syncStateAfterTokens env cfg state).pendingAuthState = state.pendingAuthState
    ∧ (syncStateAfterTokens env cfg state).athlete = state.athlete := by
  rw [syncStateAfterTokens, ensureValidTokens]
  split
  · exact ⟨rfl, rfl, rfl, rfl, rfl⟩
  · split
    · exact ⟨rfl, rfl, rfl, rfl, rfl⟩
    · dsimp only
      split
      · exact ⟨rfl, rfl, rfl, rfl, rfl⟩
      · exact ⟨rfl, rfl, rfl, rfl, rfl⟩

/-- What a successful sync run writes, in terms of the observers. -/
theorem sync_ok_components (env : StravaEnv) (cfg : BaseStravaConfig)
    (state : StoredStravaState) (catalog : List GeoJsonActivityRecord)
    (s2 : StoredStravaState) (cat2 : List GeoJsonActivityRecord)
    (sum : StravaSyncSummary)
    (h : syncStravaActivities env cfg state catalog = .ok (s2, cat2, sum)) :
    s2.importedActivityIds = some (((syncProcessed env cfg state).newImportedIds ++
        (syncStateAfterTokens env cfg state).importedActivityIds.getD []).take
        MAX_TRACKED_ACTIVITY_IDS)
    ∧ s2.lastActivityCursor = some
        (if (syncProcessed env cfg state).newestCursor != 0
         then (syncProcessed env cfg state).newestCursor
         else (syncStateAfterTokens env cfg state).lastActivityCursor.getD 0)
    ∧ sum.imported = (storeActivities env.uuids env.nowMs env.distanceOf catalog
        (syncProcessed env cfg state).inputs).1.length
    ∧ sum.considered = (syncFetched env cfg state).length := by
  rcases ensureValidTokens_shape env cfg state with ⟨e, he, _⟩ | hok
  · rw [syncStravaActivities, he] at h
    exact absurd h (by simp)
  · rw [syncStravaActivities, hok] at h
    simp only [Except.ok.injEq, Prod.mk.injEq] at h
    obtain ⟨hs, hc, hsum⟩ := h
    subst hs
    subst hsum
    exact ⟨rfl, rfl, rfl, rfl⟩

/-- C7.  `ensureValidTokens`: with Strava configured, a state missing any of
the token triple fails NotConnected with nothing written; with tokens stored,
an expiry within the 60-second buffer of now triggers a refresh whose result
is both returned and persisted, and an expiry beyond the buffer returns the
stored tokens unchanged with nothing rewritten. -/
theorem ensureValidTokens_policy (env : StravaEnv) (cfg : BaseStravaConfig)
    (state : StoredStravaState)
    (hconf : (getBaseConfig cfg).isSome = true) :
    ((jsTruthyStr state.accessToken = false ∨ jsTruthyStr state.refreshToken = false ∨
        jsTruthyNum state.expiresAt = false) →
      ensureValidTokens env cfg state
        = (.error "Strava is not connected for this user.", state))
    ∧ (∀ expiry : Int, state.expiresAt = some expiry → expiry ≠ 0 →
        jsTruthyStr state.accessToken = true → jsTruthyStr state.refreshToken = true →
        (expiry ≤ Int.fdiv env.nowMs 1000 + TOKEN_EXPIRY_BUFFER_SECONDS →
          ensureValidTokens env cfg state
            = (.ok ({ state with
                accessToken := some (env.refreshOracle (state.refreshToken.getD "")).access_token,
                refreshToken := some (env.refreshOracle (state.refreshToken.getD "")).refresh_token,
                expiresAt := some (env.refreshOracle (state.refreshToken.getD "")).expires_at }),
              { state with
                accessToken := some (env.refreshOracle (state.refreshToken.getD "")).access_token,
                refreshToken := some (env.refreshOracle (state.refreshToken.getD "")).refresh_token,
                expiresAt := some (env.refreshOracle (state.refreshToken.getD "")).expires_at }))
        ∧ (Int.fdiv env.nowMs 1000 + TOKEN_EXPIRY_BUFFER_SECONDS < expiry →
          ensureValidTokens env cfg state = (.ok state, state))) := by
  have hnone : (getBaseConfig cfg).isNone = false := by
    cases hg : getBaseConfig cfg
    · rw [hg] at hconf
      simp at hconf
    · simp
  constructor
  · intro hmiss
    rw [ensureValidTokens, if_neg (by simp [hnone])]
    rw [if_pos]
    rcases hmiss with hm | hm | hm <;> simp [hm]
  · intro expiry hexp hnz h1 h2
    have htr : jsTruthyNum state.expiresAt = true := by
      simp [hexp, jsTruthyNum, hnz]
    constructor
    · intro hle
      rw [ensureValidTokens, if_neg (by simp [hnone]), if_neg (by simp [h1, h2, htr])]
      rw [if_pos (by rw [hexp]; simpa using hle)]
    · intro hgt
      rw [ensureValidTokens, if_neg (by simp [hnone]), if_neg (by simp [h1, h2, htr])]
      rw [if_neg (by rw [hexp]; simp; omega)]

theorem ensureValidTokens_policy_witness :
    ensureValidTokens
        ⟨fun _ => "iso", 0, fun _ => "u", fun _ => 0, fun _ => ⟨"at2", "rt2", 7200⟩,
          fun _ _ => []⟩
        ⟨some "id", some "sec", some "uri"⟩
        ⟨some "tok", some "ref", some 30, none, none, none, none, none⟩
      = (.ok ⟨some "at2", some "rt2", some 7200, none, none, none, none, none⟩,
         ⟨some "at2", some "rt2", some 7200, none, none, none, none, none⟩)
    ∧ ensureValidTokens
        ⟨fun _ => "iso", 0, fun _ => "u", fun _ => 0, fun _ => ⟨"at2", "rt2", 7200⟩,
          fun _ _ => []⟩
        ⟨some "id", some "sec", some "uri"⟩
        ⟨some "tok", some "ref", some 300, none, none, none, none, none⟩
      = (.ok ⟨some "tok", some "ref", some 300, none, none, none, none, none⟩,
         ⟨some "tok", some "ref", some 300, none, none, none, none, none⟩)
    ∧ ensureValidTokens
        ⟨fun _ => "iso", 0, fun _ => "u", fun _ => 0, fun _ => ⟨"at2", "rt2", 7200⟩,
          fun _ _ => []⟩
        ⟨some "id", some "sec", some "uri"⟩
        ⟨none, none, none, none, none, none, none, none⟩
      = (.error "Strava is not connected for this user.",
         ⟨none, none, none, none, none, none, none, none⟩) := by
  refine ⟨?_, ?_, ?_⟩
  · exact ((ensureValidTokens_policy _ _ _ (by decide)).2 30 rfl (by decide) (by decide)
      (by decide)).1 (by decide)
  · exact ((ensureValidTokens_policy _ _ _ (by decide)).2 300 rfl (by decide) (by decide)
      (by decide)).2 (by decide)
  · exact (ensureValidTokens_policy _ _ _ (by decide)).1 (by decide)

/-- C5 counterexample: a stored pending nonce and a supplied `state` value
that differs from it (the empty string, which is falsy) do NOT fail the
exchange: the truthiness guard skips the comparison, the exchange proceeds,
and the nonce is cleared. -/
theorem exchange_empty_state_bypasses_mismatch :
    (exchangeStravaCode ⟨some "id", some "sec", some "uri"⟩
        ⟨some "at", some "rt", some 100, none⟩
        ⟨none, none, none, none, none, none, none, some "nonce123"⟩
        (some "")).1 = .ok ()
    ∧ (exchangeStravaCode ⟨some "id", some "sec", some "uri"⟩
        ⟨some "at", some "rt", some 100, none⟩
        ⟨none, none, none, none, none, none, none, some "nonce123"⟩
        (some "")).2.pendingAuthState = none
    ∧ (some "" : Option String) ≠ some "nonce123" := by
  refine ⟨by decide, by decide, by decide⟩

/-- C5 (amended).  `exchangeStravaCode` fails StateMismatch (before any state
write) exactly when the stored pending nonce and the supplied `state` are
both truthy (present and non-empty) and differ; otherwise a complete token
payload is persisted (tokens, expiry, athlete) with the pending nonce
cleared. -/
theorem exchangeStravaCode_policy (cfg : BaseStravaConfig)
    (payload : TokenExchangeResult) (state : StoredStravaState)
    (providedState : Option String)
    (hconf : (getBaseConfig cfg).isSome = true) :
    (jsTruthyStr state.pendingAuthState = true → jsTruthyStr providedState = true →
      state.pendingAuthState ≠ providedState →
      exchangeStravaCode cfg payload state providedState
        = (.error "State mismatch. Start the Strava connection again.", state))
    ∧ (¬(jsTruthyStr state.pendingAuthState = true ∧ jsTruthyStr providedState = true ∧
          state.pendingAuthState ≠ providedState) →
      jsTruthyStr payload.access_token = true →
      jsTruthyStr payload.refresh_token = true →
      jsTruthyNum payload.expires_at = true →
      exchangeStravaCode cfg payload state providedState
        = (.ok (), { state with
            accessToken := payload.access_token,
            refreshToken := payload.refresh_token,
            expiresAt := payload.expires_at,
            athlete := payload.athlete,
            pendingAuthState := none })) := by
  have hnone : (getBaseConfig cfg).isNone = false := by
    cases hg : getBaseConfig cfg
    · rw [hg] at hconf
      simp at hconf
    · simp
  constructor
  · intro h1 h2 h3
    rw [exchangeStravaCode, if_neg (by simp [hnone])]
    rw [if_pos]
    simp [h1, h2]
    simpa using h3
  · intro hno h1 h2 h3
    rw [exchangeStravaCode, if_neg (by simp [hnone])]
    rw [if_neg, if_neg (by simp [h1, h2, h3])]
    intro hcond
    apply hno
    simp only [Bool.and_eq_true, bne_iff_ne] at hcond
    exact ⟨hcond.1.1, hcond.1.2, hcond.2⟩

theorem exchangeStravaCode_policy_witness :
    exchangeStravaCode ⟨some "id", some "sec", some "uri"⟩
        ⟨some "at", some "rt", some 100, none⟩
        ⟨none, none, none, none, none, none, none, some "nonce123"⟩
        (some "other")
      = (.error "State mismatch. Start the Strava connection again.",
         ⟨none, none, none, none, none, none, none, some "nonce123"⟩)
    ∧ exchangeStravaCode ⟨some "id", some "sec", some "uri"⟩
        ⟨some "at", some "rt", some 100, none⟩
        ⟨none, none, none, none, none, none, none, some "nonce123"⟩
        (some "nonce123")
      = (.ok (), ⟨some "at", some "rt", some 100, none, none, none, none, none⟩) := by
  constructor
  · exact (exchangeStravaCode_policy _ _ _ _ (by decide)).1 (by decide) (by decide) (by decide)
  · exact (exchangeStravaCode_policy _ _ _ _ (by decide)).2 (by decide) (by decide)
      (by decide) (by decide)

/-- C10.  When the provider token-exchange response lacks `access_token`,
`refresh_token` or `expires_at`, `exchangeStravaCode` throws and the stored
state is completely unchanged: no token data is persisted and the pending
nonce is not cleared, because the only state write happens after the payload
check. -/
theorem exchangeStravaCode_incomplete_payload (cfg : BaseStravaConfig)
    (payload : TokenExchangeResult) (state : StoredStravaState)
    (providedState : Option String)
    (h : payload.access_token = none ∨ payload.refresh_token = none ∨
      payload.expires_at = none) :
    (∃ msg, (exchangeStravaCode cfg payload state providedState).1 = .error msg)
    ∧ (exchangeStravaCode cfg payload state providedState).2 = state := by
  rw [exchangeStravaCode]
  split
  · exact ⟨⟨_, rfl⟩, rfl⟩
  · split
    · exact ⟨⟨_, rfl⟩, rfl⟩
    · rw [if_pos]
      · exact ⟨⟨_, rfl⟩, rfl⟩
      · rcases h with hm | hm | hm <;> simp [hm, jsTruthyStr, jsTruthyNum]

theorem exchangeStravaCode_incomplete_payload_witness :
    (∃ msg, (exchangeStravaCode ⟨some "id", some "sec", some "uri"⟩
        ⟨some "at", none, some 100, none⟩
        ⟨none, none, none, none, none, none, none, some "nonce123"⟩
        (some "nonce123")).1 = .error msg)
    ∧ (exchangeStravaCode ⟨some "id", some "sec", some "uri"⟩
        ⟨some "at", none, some 100, none⟩
        ⟨none, none, none, none, none, none, none, some "nonce123"⟩
        (some "nonce123")).2
      = ⟨none, none, none, none, none, none, none, some "nonce123"⟩ :=
  exchangeStravaCode_incomplete_payload _ _ _ _ (Or.inr (Or.inl rfl))

/-- The cursor in the `forEach` accumulator never decreases. -/
theorem processActivities_cursor_mono (isoOfMs : Int → String) (nowMs : Int)
    (acts : List StravaActivity) :
    ∀ acc : ProcessAcc,
      acc.newestCursor ≤ (processActivities isoOfMs nowMs acts acc).newestCursor := by
  induction acts with
  | nil => intro acc; simp [processActivities]
  | cons a rest ih =>
    intro acc
    rw [processActivities]
    split
    · exact ih acc
    · dsimp only
      cases hb : buildActivityInput isoOfMs nowMs a with
      | some parsed =>
        dsimp only
        split
        · next hgt => exact le_trans (le_of_lt hgt) (ih _)
        · exact ih _
      | none =>
        dsimp only
        split
        · next hgt => exact le_trans (le_of_lt hgt) (ih _)
        · exact ih _

/-- C8.  After every successful sync run the stored `importedActivityIds` is
exactly the run's newly imported ids prepended (most-recent-first) to the
previous list, truncated to the 500-id cap (so the oldest tracked ids are
evicted first), and in particular never exceeds 500 entries. -/
theorem sync_imported_ids_capped (env : StravaEnv) (cfg : BaseStravaConfig)
    (state : StoredStravaState) (catalog : List GeoJsonActivityRecord)
    (s2 : StoredStravaState) (cat2 : List GeoJsonActivityRecord)
    (sum : StravaSyncSummary)
    (h : syncStravaActivities env cfg state catalog = .ok (s2, cat2, sum)) :
    s2.importedActivityIds = some (((syncProcessed env cfg state).newImportedIds ++
        state.importedActivityIds.getD []).take MAX_TRACKED_ACTIVITY_IDS)
    ∧ (s2.importedActivityIds.getD []).length ≤ MAX_TRACKED_ACTIVITY_IDS := by
  have hc := sync_ok_components env cfg state catalog s2 cat2 sum h
  have hp := ensureValidTokens_preserves env cfg state
  have h1 : s2.importedActivityIds = some (((syncProcessed env cfg state).newImportedIds ++
      state.importedActivityIds.getD []).take MAX_TRACKED_ACTIVITY_IDS) := by
    rw [hc.1, hp.1]
  refine ⟨h1, ?_⟩
  rw [h1]
  simp only [Option.getD_some, List.length_take]
  exact min_le_left _ _

theorem sync_imported_ids_capped_witness :
    syncStravaActivities
        ⟨fun _ => "iso", 0, fun _ => "u", fun _ => 0, fun _ => ⟨"a", "r", 99⟩, fun _ _ => []⟩
        ⟨some "id", some "sec", some "uri"⟩
        ⟨some "tok", some "ref", some 999999, none, some [5], some 77, none, none⟩ []
      = .ok (⟨some "tok", some "ref", some 999999, none, some [5], some 77,
          some ⟨0, 0, 0⟩, none⟩, [], ⟨0, 0, 0⟩)
    ∧ (some [(5 : Int)] : Option (List Int))
      = some ((((⟨[], [], [5], 77⟩ : ProcessAcc)).newImportedIds ++ [5]).take 500)
    ∧ ([(5 : Int)] : List Int).length ≤ MAX_TRACKED_ACTIVITY_IDS := by
  have hsync : syncStravaActivities
      ⟨fun _ => "iso", 0, fun _ => "u", fun _ => 0, fun _ => ⟨"a", "r", 99⟩, fun _ _ => []⟩
      ⟨some "id", some "sec", some "uri"⟩
      ⟨some "tok", some "ref", some 999999, none, some [5], some 77, none, none⟩ []
      = .ok (⟨some "tok", some "ref", some 999999, none, some [5], some 77,
          some ⟨0, 0, 0⟩, none⟩, [], ⟨0, 0, 0⟩) := by decide
  have h := sync_imported_ids_capped _ _ _ _ _ _ _ hsync
  exact ⟨hsync, by decide, by simpa using h.2⟩

/-- C9 counterexample: a fetched activity whose id is already in the dedup
set is skipped before the cursor update, so its start time (1000 seconds) is
NOT folded into the cursor: the stored cursor stays 0 instead of the claimed
max of the previous cursor and the largest fetched start time. -/
theorem sync_cursor_ignores_deduped_activities :
    ((syncStravaActivities
        ⟨fun _ => "iso", 0, fun _ => "u", fun _ => 0, fun _ => ⟨"a", "r", 99⟩,
          fun _ p => if p = 1
            then [⟨7, none, none, none, none, none, some 1000000⟩] else []⟩
        ⟨some "id", some "sec", some "uri"⟩
        ⟨some "tok", some "ref", some 999999, none, some [7], none, none, none⟩
        []).toOption.map (fun r => r.1.lastActivityCursor)) = some (some 0)
    ∧ (fetchRecentActivities
        (fun _ p => if p = 1
          then [(⟨7, none, none, none, none, none, some 1000000⟩ : StravaActivity)]
          else []) 0).map (fun a => a.start_date) = [some 1000000]
    ∧ (0 : Int) ≠ max 0 (Int.fdiv 1000000 1000) := by
  refine ⟨by decide, by decide, by decide⟩

/-- C9 (amended).  After every successful sync run from a state with a
nonnegative cursor, the stored cursor equals the loop's `newestCursor`, i.e.
the maximum of the previous cursor and the largest start time among the
fetched activities that were NOT skipped by the id-dedup set; in particular
the cursor never decreases. -/
theorem sync_cursor_never_decreases (env : StravaEnv) (cfg : BaseStravaConfig)
    (state : StoredStravaState) (catalog : List GeoJsonActivityRecord)
    (s2 : StoredStravaState) (cat2 : List GeoJsonActivityRecord)
    (sum : StravaSyncSummary)
    (h : syncStravaActivities env cfg state catalog = .ok (s2, cat2, sum))
    (h0 : 0 ≤ state.lastActivityCursor.getD 0) :
    s2.lastActivityCursor = some ((syncProcessed env cfg state).newestCursor)
    ∧ state.lastActivityCursor.getD 0 ≤ (syncProcessed env cfg state).newestCursor := by
  have hc := sync_ok_components env cfg state catalog s2 cat2 sum h
  have hp := ensureValidTokens_preserves env cfg state
  have hmono : state.lastActivityCursor.getD 0 ≤ (syncProcessed env cfg state).newestCursor := by
    have hmm := processActivities_cursor_mono env.isoOfMs env.nowMs
      (syncFetched env cfg state)
      ⟨[], [], (syncStateAfterTokens env cfg state).importedActivityIds.getD [],
        (syncStateAfterTokens env cfg state).lastActivityCursor.getD 0⟩
    have hmm2 : (syncStateAfterTokens env cfg state).lastActivityCursor.getD 0
        ≤ (syncProcessed env cfg state).newestCursor := hmm
    rw [hp.2.1] at hmm2
    exact hmm2
  refine ⟨?_, hmono⟩
  rw [hc.2.1, hp.2.1]
  rcases eq_or_ne ((syncProcessed env cfg state).newestCursor) 0 with hz | hnz
  · rw [hz, if_neg (by simp)]
    have : state.lastActivityCursor.getD 0 = 0 := by omega
    rw [this]
  · rw [if_pos (by simpa using hnz)]

theorem sync_cursor_never_decreases_witness :
    (⟨some "tok", some "ref", some 999999, none, some [5], some 77,
        some ⟨0, 0, 0⟩, none⟩ : StoredStravaState).lastActivityCursor
      = some ((77 : Int))
    ∧ (77 : Int) ≤ 77 := by
  have hsync : syncStravaActivities
      ⟨fun _ => "iso", 0, fun _ => "u", fun _ => 0, fun _ => ⟨"a", "r", 99⟩, fun _ _ => []⟩
      ⟨some "id", some "sec", some "uri"⟩
      ⟨some "tok", some "ref", some 999999, none, some [5], some 77, none, none⟩ []
      = .ok (⟨some "tok", some "ref", some 999999, none, some [5], some 77,
          some ⟨0, 0, 0⟩, none⟩, [], ⟨0, 0, 0⟩) := by decide
  have h := sync_cursor_never_decreases _ _ _ _ _ _ _ hsync (by decide)
  constructor
  · exact h.1.trans (by decide)
  · exact le_refl _


/-- A short two-point Google-encoded polyline (the classic codec example),
as the code sees it: the character-code list of the encoded string. -/
def polyTwo : List Int := "_p~iF~ps|U_ulLnnqC".toList.map (fun c => (c.toNat : Int))

def actRecent : StravaActivity := ⟨1000, some "A", some "Run", none, some polyTwo, none, some 5000000⟩

def actOlder : StravaActivity := ⟨500, some "B", some "Run", none, some polyTwo, none, some 3000000⟩

/-- An upstream whose activity list is literally independent of the `after`
cursor: every sync fetches the same two parseable activities. -/
def envRerun : StravaEnv := ⟨fun _ => "iso", 0, fun _ => "u", fun _ => 0, fun _ => ⟨"a", "r", 99⟩,
  fun _ p => if p = 1 then [actRecent, actOlder] else []⟩

/-- A connected state already tracking 500 imported ids (1..500), the cap of
the dedup list. -/
def stateRerun : StoredStravaState := ⟨some "tok", some "ref", some 999999, none,
  some ((List.range 500).map (fun i => (i : Int) + 1)), some 0, none, none⟩

set_option maxRecDepth 100000 in
/-- C3 counterexample: re-running sync against a byte-for-byte unchanged,
cursor-independent upstream imports an activity AGAIN on the second call.
The state tracks the 500-id cap exactly; the first run imports the new
activity (id 1000), prepends it and evicts id 500 from the dedup list, so the
second run re-imports activity 500 (second sync has imported = 1, not 0). -/
theorem sync_rerun_reimports_evicted_id :
    ((syncStravaActivities envRerun ⟨some "id", some "sec", some "uri"⟩ stateRerun []).bind
        (fun r => syncStravaActivities envRerun ⟨some "id", some "sec", some "uri"⟩
          r.1 r.2.1)).toOption.map (fun r => r.2.2.imported) = some 1
    ∧ (syncStravaActivities envRerun ⟨some "id", some "sec", some "uri"⟩
        stateRerun []).toOption.map (fun r => (r.1.importedActivityIds.getD []).length)
      = some MAX_TRACKED_ACTIVITY_IDS
    ∧ (1 : Nat) ≠ 0 := by
  refine ⟨by decide, by decide, by decide⟩


/-- The ids-and-inputs effect of the sync loop, as a pure function of the
activity list and the seen set (the cursor never feeds back into which
activities are imported). -/
def procNew (isoOfMs : Int → String) (nowMs : Int) :
    List StravaActivity → List Int → List ActivityInput × List Int
  | [], _ => ([], [])
  | a :: rest, seen =>
    if a.id ∈ seen then procNew isoOfMs nowMs rest seen
    else
      match buildActivityInput isoOfMs nowMs a with
      | some parsed =>
        let r := procNew isoOfMs nowMs rest (a.id :: seen)
        (parsed :: r.1, a.id :: r.2)
      | none => procNew isoOfMs nowMs rest seen

theorem processActivities_spec (isoOfMs : Int → String) (nowMs : Int)
    (acts : List StravaActivity) :
    ∀ acc : ProcessAcc,
      (processActivities isoOfMs nowMs acts acc).inputs
          = acc.inputs ++ (procNew isoOfMs nowMs acts acc.seenIds).1
      ∧ (processActivities isoOfMs nowMs acts acc).newImportedIds
          = acc.newImportedIds ++ (procNew isoOfMs nowMs acts acc.seenIds).2
      ∧ (processActivities isoOfMs nowMs acts acc).seenIds
          = (procNew isoOfMs nowMs acts acc.seenIds).2.reverse ++ acc.seenIds := by
  induction acts with
  | nil =>
    intro acc
    refine ⟨?_, ?_, ?_⟩ <;> simp [processActivities, procNew]
  | cons a rest ih =>
    intro acc
    rw [processActivities, procNew]
    dsimp only
    by_cases hmem : a.id ∈ acc.seenIds
    · simp only [if_pos hmem]
      exact ih acc
    · simp only [if_neg hmem]
      cases hb : buildActivityInput isoOfMs nowMs a with
      | some parsed =>
        dsimp only
        split
        · refine ⟨?_, ?_, ?_⟩
          · rw [(ih _).1]; simp
          · rw [(ih _).2.1]; simp
          · rw [(ih _).2.2]; simp
        · refine ⟨?_, ?_, ?_⟩
          · rw [(ih _).1]; simp
          · rw [(ih _).2.1]; simp
          · rw [(ih _).2.2]; simp
      | none =>
        dsimp only
        split
        · exact ih _
        · exact ih acc

theorem procNew_ids_length (isoOfMs : Int → String) (nowMs : Int)
    (acts : List StravaActivity) :
    ∀ seen, (procNew isoOfMs nowMs acts seen).2.length ≤ acts.length := by
  induction acts with
  | nil => intro seen; simp [procNew]
  | cons a rest ih =>
    intro seen
    rw [procNew]
    simp only [List.length_cons]
    by_cases hmem : a.id ∈ seen
    · rw [if_pos hmem]
      exact le_trans (ih seen) (Nat.le_succ _)
    · rw [if_neg hmem]
      cases hb : buildActivityInput isoOfMs nowMs a with
      | some parsed =>
        dsimp only
        simp only [List.length_cons]
        exact Nat.succ_le_succ (ih (a.id :: seen))
      | none =>
        dsimp only
        exact le_trans (ih seen) (Nat.le_succ _)

theorem procNew_covers (isoOfMs : Int → String) (nowMs : Int)
    (acts : List StravaActivity) :
    ∀ seen a, a ∈ acts → (buildActivityInput isoOfMs nowMs a).isSome = true →
      a.id ∈ (procNew isoOfMs nowMs acts seen).2 ∨ a.id ∈ seen := by
  induction acts with
  | nil => intro seen a ha _; exact absurd ha (List.not_mem_nil a)
  | cons b rest ih =>
    intro seen a ha hsome
    rw [procNew]
    by_cases hmem : b.id ∈ seen
    · rw [if_pos hmem]
      rcases List.mem_cons.mp ha with rfl | ha2
      · exact .inr hmem
      · exact ih seen a ha2 hsome
    · rw [if_neg hmem]
      cases hb : buildActivityInput isoOfMs nowMs b with
      | some parsed =>
        dsimp only
        rcases List.mem_cons.mp ha with rfl | ha2
        · exact .inl (List.mem_cons_self _ _)
        · rcases ih (b.id :: seen) a ha2 hsome with h | h
          · exact .inl (List.mem_cons_of_mem _ h)
          · rcases List.mem_cons.mp h with he | h2
            · exact .inl (by rw [he]; exact List.mem_cons_self _ _)
            · exact .inr h2
      | none =>
        dsimp only
        rcases List.mem_cons.mp ha with rfl | ha2
        · rw [hb] at hsome
          exact absurd hsome (by simp)
        · exact ih seen a ha2 hsome

theorem procNew_no_new (isoOfMs : Int → String) (nowMs : Int)
    (acts : List StravaActivity) :
    ∀ seen, (∀ a ∈ acts, (buildActivityInput isoOfMs nowMs a).isSome = true →
        a.id ∈ seen) →
      procNew isoOfMs nowMs acts seen = ([], []) := by
  induction acts with
  | nil => intro seen _; rfl
  | cons b rest ih =>
    intro seen hall
    rw [procNew]
    by_cases hmem : b.id ∈ seen
    · rw [if_pos hmem]
      exact ih seen (fun a ha => hall a (List.mem_cons_of_mem _ ha))
    · rw [if_neg hmem]
      cases hb : buildActivityInput isoOfMs nowMs b with
      | some parsed =>
        exact absurd (hall b (List.mem_cons_self _ _) (by rw [hb]; rfl)) hmem
      | none =>
        dsimp only
        exact ih seen (fun a ha => hall a (List.mem_cons_of_mem _ ha))

theorem fetchGo_congr (l1 l2 : Int → Nat → List StravaActivity) (a1 a2 : Int)
    (hup : ∀ b1 b2 p, l1 b1 p = l2 b2 p) :
    ∀ fuel page coll, fetchGo l1 a1 fuel page coll = fetchGo l2 a2 fuel page coll := by
  intro fuel
  induction fuel with
  | zero => intro page coll; rfl
  | succ f ih =>
    intro page coll
    rw [fetchGo, fetchGo, hup a1 a2 page]
    split
    · rfl
    · split
      · rfl
      · exact ih (page + 1) (coll ++ l2 a2 page)

theorem fetchRecentActivities_congr (l1 l2 : Int → Nat → List StravaActivity)
    (a1 a2 : Int) (hup : ∀ b1 b2 p, l1 b1 p = l2 b2 p) :
    fetchRecentActivities l1 a1 = fetchRecentActivities l2 a2 := by
  rw [fetchRecentActivities, fetchRecentActivities]
  exact fetchGo_congr l1 l2 a1 a2 hup MAX_SYNC_PAGES 1 []

theorem buildActivityInput_isSome_congr (i1 i2 : Int → String) (n1 n2 : Int)
    (a : StravaActivity) :
    (buildActivityInput i1 n1 a).isSome = (buildActivityInput i2 n2 a).isSome := by
  rw [buildActivityInput, buildActivityInput]
  cases resolveSport a with
  | none => rfl
  | some s =>
    dsimp only
    cases a.mapSummaryPolyline.orElse (fun _ => a.mapPolyline) with
    | none => rfl
    | some poly =>
      dsimp only
      split
      · rfl
      · split
        · rfl
        · rfl

/-- C3 (amended).  Running sync a second time against an unchanged,
cursor-independent upstream imports 0 new activities, by the id-dedup set
alone — PROVIDED the previously tracked ids plus the first run's considered
activities fit inside the 500-id cap (otherwise eviction from the capped
dedup list can resurrect an id, see the counterexample).  `env1`/`env2` may
differ in clocks and oracles; only the activity list must be unchanged. -/
theorem sync_rerun_imports_nothing
    (env1 env2 : StravaEnv) (cfg : BaseStravaConfig)
    (state : StoredStravaState) (catalog : List GeoJsonActivityRecord)
    (s1 : StoredStravaState) (cat1 : List GeoJsonActivityRecord) (sum1 : StravaSyncSummary)
    (s2 : StoredStravaState) (cat2 : List GeoJsonActivityRecord) (sum2 : StravaSyncSummary)
    (hup : ∀ b1 b2 p, env1.listActivities b1 p = env2.listActivities b2 p)
    (h1 : syncStravaActivities env1 cfg state catalog = .ok (s1, cat1, sum1))
    (h2 : syncStravaActivities env2 cfg s1 cat1 = .ok (s2, cat2, sum2))
    (hcap : (state.importedActivityIds.getD []).length + sum1.considered
      ≤ MAX_TRACKED_ACTIVITY_IDS) :
    sum2.imported = 0 := by
  have hc1 := sync_ok_components env1 cfg state catalog s1 cat1 sum1 h1
  have hp1 := ensureValidTokens_preserves env1 cfg state
  have hc2 := sync_ok_components env2 cfg s1 cat1 s2 cat2 sum2 h2
  have hp2 := ensureValidTokens_preserves env2 cfg s1
  have hP1new : (syncProcessed env1 cfg state).newImportedIds
      = (procNew env1.isoOfMs env1.nowMs (syncFetched env1 cfg state)
          (state.importedActivityIds.getD [])).2 := by
    rw [syncProcessed, (processActivities_spec env1.isoOfMs env1.nowMs
        (syncFetched env1 cfg state) _).2.1]
    simp [hp1.1]
  have hs1ids : s1.importedActivityIds
      = some (((procNew env1.isoOfMs env1.nowMs (syncFetched env1 cfg state)
          (state.importedActivityIds.getD [])).2
        ++ state.importedActivityIds.getD []).take MAX_TRACKED_ACTIVITY_IDS) := by
    rw [hc1.1, hp1.1, hP1new]
  have hlen : ((procNew env1.isoOfMs env1.nowMs (syncFetched env1 cfg state)
        (state.importedActivityIds.getD [])).2
      ++ state.importedActivityIds.getD []).length ≤ MAX_TRACKED_ACTIVITY_IDS := by
    have hl1 := procNew_ids_length env1.isoOfMs env1.nowMs (syncFetched env1 cfg state)
      (state.importedActivityIds.getD [])
    have hcons : sum1.considered = (syncFetched env1 cfg state).length := hc1.2.2.2
    simp only [List.length_append]
    omega
  have htake := List.take_of_length_le hlen
  have hF : syncFetched env2 cfg s1 = syncFetched env1 cfg state := by
    rw [syncFetched, syncFetched]
    exact fetchRecentActivities_congr env2.listActivities env1.listActivities _ _
      (fun b1 b2 p => (hup b2 b1 p).symm)
  have hseen2 : (syncStateAfterTokens env2 cfg s1).importedActivityIds.getD []
      = (procNew env1.isoOfMs env1.nowMs (syncFetched env1 cfg state)
          (state.importedActivityIds.getD [])).2
        ++ state.importedActivityIds.getD [] := by
    rw [hp2.1, hs1ids]
    simp only [Option.getD_some]
    exact htake
  have hall : ∀ a ∈ syncFetched env2 cfg s1,
      (buildActivityInput env2.isoOfMs env2.nowMs a).isSome = true →
      a.id ∈ (procNew env1.isoOfMs env1.nowMs (syncFetched env1 cfg state)
          (state.importedActivityIds.getD [])).2
        ++ state.importedActivityIds.getD [] := by
    intro a ha hsome
    rw [hF] at ha
    have hsome1 : (buildActivityInput env1.isoOfMs env1.nowMs a).isSome = true := by
      rw [buildActivityInput_isSome_congr env1.isoOfMs env2.isoOfMs env1.nowMs env2.nowMs a]
      exact hsome
    rcases procNew_covers env1.isoOfMs env1.nowMs (syncFetched env1 cfg state)
      (state.importedActivityIds.getD []) a ha hsome1 with h | h
    · exact List.mem_append_left _ h
    · exact List.mem_append_right _ h
  have hz := procNew_no_new env2.isoOfMs env2.nowMs (syncFetched env2 cfg s1) _ hall
  have hP2inputs : (syncProcessed env2 cfg s1).inputs = [] := by
    rw [syncProcessed, (processActivities_spec env2.isoOfMs env2.nowMs
        (syncFetched env2 cfg s1) _).1]
    simp [hseen2, hz]
  rw [hc2.2.2.1, hP2inputs]
  simp [storeActivities]

theorem sync_rerun_imports_nothing_witness :
    ((⟨0, 0, 0⟩ : StravaSyncSummary)).imported = 0
    ∧ (1 : Nat) + 0 ≤ MAX_TRACKED_ACTIVITY_IDS := by
  have h1 : syncStravaActivities
      ⟨fun _ => "iso", 0, fun _ => "u", fun _ => 0, fun _ => ⟨"a", "r", 99⟩, fun _ _ => []⟩
      ⟨some "id", some "sec", some "uri"⟩
      ⟨some "tok", some "ref", some 999999, none, some [5], some 77, none, none⟩ []
      = .ok (⟨some "tok", some "ref", some 999999, none, some [5], some 77,
          some ⟨0, 0, 0⟩, none⟩, [], ⟨0, 0, 0⟩) := by decide
  have h2 : syncStravaActivities
      ⟨fun _ => "iso", 0, fun _ => "u", fun _ => 0, fun _ => ⟨"a", "r", 99⟩, fun _ _ => []⟩
      ⟨some "id", some "sec", some "uri"⟩
      ⟨some "tok", some "ref", some 999999, none, some [5], some 77,
        some ⟨0, 0, 0⟩, none⟩ []
      = .ok (⟨some "tok", some "ref", some 999999, none, some [5], some 77,
          some ⟨0, 0, 0⟩, none⟩, [], ⟨0, 0, 0⟩) := by decide
  have h := sync_rerun_imports_nothing _ _ _ _ _ _ _ _ _ _ _
    (fun _ _ _ => rfl) h1 h2 (by decide)
  exact ⟨h, by decide⟩

end GpxGrid
